import Mathlib

/-!
Verification of the USDC cross-chain bridge frontend.

The development is a shallow embedding of the repository's core logic:

* `src/utils/usdc.ts` — the amount codec (`parseUSDC`, `formatUSDC`,
  `isValidUSDCAmount`);
* `src/services/bridge.ts` — the `BridgeService` orchestrator
  (`bridgeUSDC`, `recoverTransfer`, `executeApprove`, `executeBurn`,
  `executeMint`, `executeWithRetry`, `normalizeEvmTxHash`,
  `extractRecipientFromAttestation`, the error formatters and the chain
  tables);
* `src/state/transfer.store.ts` — the session store's `onProgress`
  reducers for new transfers and for recovery.

JavaScript strings are embedded as `List Char` / `String`, `bigint` as
`Nat` (all amounts produced by the codec are non-negative), thrown
exceptions as `Except String`, and the asynchronous environment (wallets,
adapters, chain RPC, the attestation service) as explicit environment
records describing the outcome of each external call; the orchestrator
itself is then a pure function of its parameters and that environment,
returning the outcome together with the list of emitted progress events.
-/

/-! ### Character helpers (ASCII fragments of the JS string primitives) -/

/-- The JS regex class `\d`: a decimal digit character. -/
def isDig (c : Char) : Bool := 48 ≤ c.toNat && c.toNat ≤ 57

/-- Numeric value of a digit character. -/
def charVal (c : Char) : Nat := c.toNat - 48

/-- Digit character of a value below 10. -/
def digitOfNat (d : Nat) : Char := Char.ofNat (48 + d)

/-- Whitespace recognised by `String.prototype.trim` (ASCII fragment). -/
def isWhiteChar (c : Char) : Bool := c = ' ' || c = '\t' || c = '\n' || c = '\r'

/-- Embedding of `String.prototype.trim`. -/
def trimChars (l : List Char) : List Char :=
  ((l.dropWhile isWhiteChar).reverse.dropWhile isWhiteChar).reverse

/-- Embedding of `String.prototype.includes` on character lists. -/
def listHasSub (l pat : List Char) : Bool := l.tails.any (fun t => pat.isPrefixOf t)

/-- Embedding of `String.prototype.includes`. -/
def strHasSub (s pat : String) : Bool := listHasSub s.data pat.data

/-- Embedding of `String.prototype.toLowerCase` on one ASCII character. -/
def lowerChar (c : Char) : Char :=
  if 65 ≤ c.toNat && c.toNat ≤ 90 then Char.ofNat (c.toNat + 32) else c

/-- Embedding of `String.prototype.toLowerCase` (ASCII fragment). -/
def lowerStr (s : String) : String := String.mk (s.data.map lowerChar)

/-! ### Amount codec — `src/utils/usdc.ts`

`USDC_DECIMALS = 6`.  `parseUSDC` validates against `^\d+(\.\d+)?$` after
trimming and builds the base-unit integer by concatenating the integer part
with the fractional part right-padded to 6 digits; `formatUSDC` left-pads
the decimal rendering to 7 characters, splits 6 characters from the end and
strips trailing fractional zeros.  `BigInt(string-of-digits)` is embedded
as a fold (`digitsToNat`), `BigInt.prototype.toString` as the decimal
rendering `natToChars`. -/

/-- `BigInt` parsing of a string of digit characters (most significant first). -/
def digitsToNat (l : List Char) : Nat := l.foldl (fun a c => 10 * a + charVal c) 0

/-- Fuel-driven little-endian base-10 digits (agrees with `Nat.digits 10`). -/
def natDigitsAux : Nat → Nat → List Nat
  | 0, _ => []
  | fuel + 1, n => if n = 0 then [] else n % 10 :: natDigitsAux fuel (n / 10)

/-- Little-endian base-10 digits of `n`. -/
def natDigits (n : Nat) : List Nat := natDigitsAux n n

/-- Decimal rendering of a natural number (`BigInt.prototype.toString`). -/
def natToChars (n : Nat) : List Char :=
  if n = 0 then ['0'] else ((natDigits n).map digitOfNat).reverse

/-- The part of the amount string before the first dot (`split('.')[0]`). -/
def intPartOf (l : List Char) : List Char := l.takeWhile (fun c => c ≠ '.')

/-- The first dot and everything after it. -/
def dotRest (l : List Char) : List Char := l.dropWhile (fun c => c ≠ '.')

/-- The part after the first dot (`split('.')[1] ?? ''`). -/
def fracPartOf (l : List Char) : List Char := (dotRest l).drop 1

/-- The JS regex test `^\d+(\.\d+)?$` used by the codec. -/
def matchAmountFormat (l : List Char) : Bool :=
  let i := intPartOf l
  let r := dotRest l
  !i.isEmpty && i.all isDig && (r.isEmpty || (!(r.drop 1).isEmpty && (r.drop 1).all isDig))

/-- `String.prototype.padEnd` with `'0'`. -/
def padEndZeros (l : List Char) (k : Nat) : List Char :=
  l ++ List.replicate (k - l.length) '0'

/-- `String.prototype.padStart` with `'0'`. -/
def padStartZeros (l : List Char) (k : Nat) : List Char :=
  List.replicate (k - l.length) '0' ++ l

/-- `replace(/0+$/, '')`: strip trailing zero characters. -/
def stripZerosRight (l : List Char) : List Char :=
  (l.reverse.dropWhile (fun c => c = '0')).reverse

/-- `parseUSDC` on the character list of the input string.  The two internal
throws are re-thrown by the surrounding catch with the
`Failed to parse USDC amount: ` prefix. -/
def parseUSDCChars (l : List Char) : Except String Nat :=
  let cleaned := trimChars l
  if !matchAmountFormat cleaned then
    Except.error "Failed to parse USDC amount: Invalid USDC amount format"
  else if 6 < (fracPartOf cleaned).length then
    Except.error "Failed to parse USDC amount: USDC supports maximum 6 decimal places"
  else
    Except.ok (digitsToNat (intPartOf cleaned ++ padEndZeros (fracPartOf cleaned) 6))

/-- Embedding of `parseUSDC` (USDC amount string to base units). -/
def parseUSDC (s : String) : Except String Nat := parseUSDCChars s.data

/-- Embedding of `formatUSDC` on non-negative raw amounts.  The source's
`integerPart || '0'` fallback is unreachable because the padded rendering
has at least 7 characters. -/
def formatUSDCChars (n : Nat) (maxDecimals : Nat) : List Char :=
  let s := padStartZeros (natToChars n) 7
  let integerPart := s.take (s.length - 6)
  let decimalPart := s.drop (s.length - 6)
  let trimmedDecimal := stripZerosRight decimalPart
  let limitedDecimal := trimmedDecimal.take maxDecimals
  if limitedDecimal.isEmpty then integerPart else integerPart ++ '.' :: limitedDecimal

/-- Embedding of `formatUSDC` (raw base units to display string). -/
def formatUSDC (n : Nat) (maxDecimals : Nat) : String :=
  String.mk (formatUSDCChars n maxDecimals)

/-- Embedding of `isValidUSDCAmount`.  On inputs that already passed the
format and decimal-count checks, `parseFloat(cleaned) > 0` holds exactly
when some digit of the string is non-zero (every such value is at least
`1e-6`, which `parseFloat` cannot round to a non-positive double), so the
final check is embedded as that digit test. -/
def isValidUSDCAmount (s : String) : Bool :=
  let cleaned := trimChars s.data
  if cleaned.isEmpty then false
  else if !matchAmountFormat cleaned then false
  else if 6 < (fracPartOf cleaned).length then false
  else cleaned.any (fun c => isDig c && c ≠ '0')

/-- Claim-side helper: `s` with trailing fractional zeros stripped (and a
then-empty fractional part's dot removed); the integer part is untouched. -/
def specStripFrac (s : String) : String :=
  let f2 := stripZerosRight (fracPartOf s.data)
  String.mk (if f2.isEmpty then intPartOf s.data else intPartOf s.data ++ '.' :: f2)

/-- Claim-side helper: a well-formed amount string with at most six
fractional digits. -/
def validAmount6 (s : String) : Bool :=
  matchAmountFormat s.data && (fracPartOf s.data).length ≤ 6

/-- Claim-side helper: the integer part carries no superfluous leading zero. -/
def noLeadingZero : List Char → Bool
  | [] => false
  | [_] => true
  | c :: _ :: _ => c ≠ '0'

example : parseUSDC "100.50" = Except.ok 100500000 := rfl
example : formatUSDC 100500000 6 = "100.5" := by decide
example : parseUSDC "007.50" = Except.ok 7500000 := rfl
example : formatUSDC 7500000 6 = "7.5" := by decide
example : parseUSDC " 1.5" = Except.ok 1500000 := rfl
example : isValidUSDCAmount "0.000001" = true := by decide
example : isValidUSDCAmount "0" = false := by decide
example : isValidUSDCAmount "-1" = false := by decide
example : isValidUSDCAmount "" = false := by decide
example : isValidUSDCAmount "1.23456789" = false := by decide
example : parseUSDC "1.1234567" =
    Except.error "Failed to parse USDC amount: USDC supports maximum 6 decimal places" := rfl
example : formatUSDC 0 6 = "0" := by decide
example : formatUSDC 1 6 = "0.000001" := by decide

/-! ### Arithmetic facts about the codec -/

theorem dton_foldl (l : List Char) (acc : Nat) :
    List.foldl (fun a c => 10 * a + charVal c) acc l =
      acc * 10 ^ l.length + digitsToNat l := by
  induction l generalizing acc with
  | nil => simp [digitsToNat]
  | cons c t ih =>
    simp only [List.foldl_cons, List.length_cons, digitsToNat]
    rw [ih (10 * acc + charVal c), ih (10 * 0 + charVal c)]
    ring

theorem dton_cons (c : Char) (t : List Char) :
    digitsToNat (c :: t) = charVal c * 10 ^ t.length + digitsToNat t := by
  simp only [digitsToNat, List.foldl_cons]
  rw [dton_foldl]
  simp only [digitsToNat]
  ring

theorem dton_append (a b : List Char) :
    digitsToNat (a ++ b) = digitsToNat a * 10 ^ b.length + digitsToNat b := by
  simp only [digitsToNat, List.foldl_append]
  rw [dton_foldl]
  simp only [digitsToNat]

theorem dton_replicate_zero (k : Nat) : digitsToNat (List.replicate k '0') = 0 := by
  induction k with
  | zero => rfl
  | succ k ih =>
    rw [List.replicate_succ, dton_cons, ih]
    simp [charVal]

theorem charVal_lt (c : Char) (h : isDig c = true) : charVal c < 10 := by
  simp only [isDig, Bool.and_eq_true, decide_eq_true_eq] at h
  simp only [charVal]
  omega

theorem dton_lt (l : List Char) (h : l.all isDig = true) :
    digitsToNat l < 10 ^ l.length := by
  induction l with
  | nil => simp [digitsToNat]
  | cons c t ih =>
    simp only [List.all_cons, Bool.and_eq_true] at h
    have h1 := charVal_lt c h.1
    have h2 := ih h.2
    rw [dton_cons]
    simp only [List.length_cons, pow_succ]
    nlinarith

theorem dton_eq_ofDigits (l : List Char) :
    digitsToNat l = Nat.ofDigits 10 (l.map charVal).reverse := by
  induction l with
  | nil => simp [digitsToNat]
  | cons c t ih =>
    rw [dton_cons, ih]
    simp only [List.map_cons, List.reverse_cons, Nat.ofDigits_append]
    simp [Nat.ofDigits_cons, Nat.ofDigits_nil]
    ring

theorem natDigitsAux_eq (fuel n : Nat) (h : n ≤ fuel) :
    natDigitsAux fuel n = Nat.digits 10 n := by
  induction fuel generalizing n with
  | zero =>
    have hn : n = 0 := by omega
    subst hn; simp [natDigitsAux]
  | succ fuel ih =>
    by_cases h0 : n = 0
    · subst h0; simp [natDigitsAux]
    · rw [natDigitsAux, if_neg h0, Nat.digits_def' (by norm_num) (Nat.pos_of_ne_zero h0)]
      rw [ih (n / 10) (by omega)]

theorem natDigits_eq (n : Nat) : natDigits n = Nat.digits 10 n :=
  natDigitsAux_eq n n le_rfl

theorem digitOfNat_charVal (c : Char) (h : isDig c = true) :
    digitOfNat (charVal c) = c := by
  simp only [isDig, Bool.and_eq_true, decide_eq_true_eq] at h
  have : 48 + charVal c = c.toNat := by simp only [charVal]; omega
  rw [digitOfNat, this]
  exact Char.ofNat_toNat c


theorem charVal_pos (c : Char) (hd : isDig c = true) (h0 : c ≠ '0') :
    0 < charVal c := by
  simp only [isDig, Bool.and_eq_true, decide_eq_true_eq] at hd
  by_contra hc
  have hv : c.toNat = 48 := by simp only [charVal] at hc; omega
  exact h0 (by rw [← Char.ofNat_toNat c, hv])

theorem natToChars_dton (c : Char) (t : List Char)
    (hd : (c :: t).all isDig = true) (hh : c ≠ '0') :
    natToChars (digitsToNat (c :: t)) = c :: t := by
  simp only [List.all_cons, Bool.and_eq_true] at hd
  have hall : ∀ x ∈ c :: t, isDig x = true := by
    intro x hx
    rcases List.mem_cons.mp hx with hx | hx
    · exact hx ▸ hd.1
    · exact List.all_eq_true.mp hd.2 x hx
  have hcv : 0 < charVal c := charVal_pos c hd.1 hh
  have hpos : 0 < digitsToNat (c :: t) := by
    rw [dton_cons]
    have : 0 < 10 ^ t.length := Nat.pos_pow_of_pos _ (by norm_num)
    nlinarith
  have hof := dton_eq_ofDigits (c :: t)
  have hL : ∀ d ∈ ((c :: t).map charVal).reverse, d < 10 := by
    intro d hdm
    simp only [List.mem_reverse, List.mem_map] at hdm
    obtain ⟨x, hx, rfl⟩ := hdm
    exact charVal_lt x (hall x hx)
  have hlast : ∀ (h : ((c :: t).map charVal).reverse ≠ []),
      (((c :: t).map charVal).reverse).getLast h ≠ 0 := by
    intro h
    rw [List.getLast_reverse]
    simp only [List.map_cons, List.head_cons]
    omega
  have hdig : Nat.digits 10 (digitsToNat (c :: t)) = ((c :: t).map charVal).reverse := by
    rw [hof, Nat.digits_ofDigits 10 (by norm_num) _ hL hlast]
  rw [natToChars, if_neg (Nat.pos_iff_ne_zero.mp hpos), natDigits_eq, hdig]
  rw [List.map_reverse, List.reverse_reverse, List.map_map]
  have hcongr : ∀ x ∈ c :: t, (digitOfNat ∘ charVal) x = id x := fun x hx =>
    digitOfNat_charVal x (hall x hx)
  rw [List.map_congr_left hcongr, List.map_id]

theorem natToChars_length_le (n k : Nat) (hn : n < 10 ^ k) (hk : 1 ≤ k) :
    (natToChars n).length ≤ k := by
  by_cases h0 : n = 0
  · subst h0; simpa [natToChars] using hk
  · rw [natToChars, if_neg h0, natDigits_eq]
    simp only [List.length_reverse, List.length_map]
    have hle := Nat.base_pow_length_digits_le 10 n (by norm_num) h0
    have hlt : 10 ^ (Nat.digits 10 n).length < 10 ^ (k + 1) := by
      calc 10 ^ (Nat.digits 10 n).length ≤ 10 * n := hle
        _ < 10 * 10 ^ k := by omega
        _ = 10 ^ (k + 1) := by ring
    have := (Nat.pow_lt_pow_iff_right (by norm_num : (1:Nat) < 10)).1 hlt
    omega

theorem padStart_natToChars (l : List Char) (hne : l ≠ []) (hd : l.all isDig = true) :
    padStartZeros (natToChars (digitsToNat l)) l.length = l := by
  induction l with
  | nil => exact absurd rfl hne
  | cons c t ih =>
    simp only [List.all_cons, Bool.and_eq_true] at hd
    by_cases hc : c = '0'
    · subst hc
      cases t with
      | nil => decide
      | cons a t2 =>
        have hdt : digitsToNat ('0' :: a :: t2) = digitsToNat (a :: t2) := by
          rw [dton_cons]
          have hc0 : charVal '0' = 0 := by decide
          rw [hc0]
          ring
        have hlen : (natToChars (digitsToNat (a :: t2))).length ≤ (a :: t2).length := by
          refine natToChars_length_le _ _ (dton_lt _ hd.2) ?_
          simp
        rw [hdt]
        have key : ∀ x : List Char, x.length ≤ (a :: t2).length →
            padStartZeros x ((a :: t2).length + 1) = '0' :: padStartZeros x (a :: t2).length := by
          intro x hx
          simp only [padStartZeros]
          have hstep : (a :: t2).length + 1 - x.length
              = ((a :: t2).length - x.length) + 1 := by omega
          rw [hstep, List.replicate_succ, List.cons_append]
        have hlc : ('0' :: a :: t2).length = (a :: t2).length + 1 := rfl
        rw [hlc, key _ hlen, ih (by simp) hd.2]
    · rw [natToChars_dton c t (by simp [List.all_cons, hd.1, hd.2]) hc]
      simp [padStartZeros]

theorem dropWhile_of_all_false {p : Char → Bool} {l : List Char}
    (h : ∀ c ∈ l, p c = false) : l.dropWhile p = l := by
  cases l with
  | nil => rfl
  | cons c t =>
    rw [List.dropWhile_cons, if_neg]
    simp [h c (List.mem_cons_self c t)]

theorem trim_id (l : List Char) (h : ∀ c ∈ l, isWhiteChar c = false) :
    trimChars l = l := by
  unfold trimChars
  rw [dropWhile_of_all_false h, dropWhile_of_all_false, List.reverse_reverse]
  intro c hc
  exact h c (List.mem_reverse.mp hc)

theorem strip_append_zeros (f : List Char) (k : Nat) :
    stripZerosRight (f ++ List.replicate k '0') = stripZerosRight f := by
  simp only [stripZerosRight, List.reverse_append, List.reverse_replicate]
  congr 1
  induction k with
  | zero => simp
  | succ k ih => simp [List.replicate_succ, ih]

theorem strip_length_le (l : List Char) : (stripZerosRight l).length ≤ l.length := by
  simp only [stripZerosRight, List.length_reverse]
  simpa using (List.dropWhile_sublist (l := l.reverse) (fun c => c = '0')).length_le

theorem dropWhile_head_false {p : Char → Bool} {l : List Char} {x : Char} {xs : List Char}
    (h : l.dropWhile p = x :: xs) : p x = false := by
  induction l with
  | nil => simp at h
  | cons c t ih =>
    rw [List.dropWhile_cons] at h
    by_cases hp : p c = true
    · exact ih (by rwa [if_pos hp] at h)
    · rw [if_neg hp] at h
      cases h
      simpa using hp

theorem isDig_not_white (c : Char) (h : isDig c = true) : isWhiteChar c = false := by
  by_contra hw
  simp only [isWhiteChar, Bool.or_eq_true, decide_eq_true_eq,
    Bool.not_eq_false] at hw
  rcases hw with ((rfl | rfl) | rfl) | rfl <;> simp [isDig] at h

theorem amount_decomp (l : List Char) (h : matchAmountFormat l = true) :
    (intPartOf l ≠ [] ∧ (intPartOf l).all isDig = true) ∧
      (l = intPartOf l ∧ fracPartOf l = [] ∨
        l = intPartOf l ++ '.' :: fracPartOf l ∧ fracPartOf l ≠ [] ∧
          (fracPartOf l).all isDig = true) := by
  simp only [matchAmountFormat, Bool.and_eq_true, Bool.or_eq_true, Bool.not_eq_eq_eq_not,
    Bool.not_false, List.isEmpty_iff, Bool.not_eq_true] at h
  obtain ⟨⟨hi, hall⟩, hr⟩ := h
  have hsplit : intPartOf l ++ dotRest l = l :=
    List.takeWhile_append_dropWhile (fun c => decide (c ≠ '.')) l
  refine ⟨⟨by simpa using hi, hall⟩, ?_⟩
  cases hdr : dotRest l with
  | nil =>
    left
    refine ⟨?_, by simp [fracPartOf, hdr]⟩
    conv_lhs => rw [← hsplit, hdr]
    simp
  | cons x xs =>
    right
    have hx : x = '.' := by
      have hhead := dropWhile_head_false (p := fun c => decide (c ≠ '.')) (l := l)
        (by simpa [dotRest] using hdr)
      simpa using hhead
    subst hx
    have hfr : fracPartOf l = xs := by simp [fracPartOf, hdr]
    rcases hr with hr | hr
    · rw [hdr] at hr; simp at hr
    · refine ⟨?_, ?_, ?_⟩
      · rw [hfr]
        conv_lhs => rw [← hsplit, hdr]
      · rw [hfr]
        rw [hdr] at hr
        simpa using hr.1
      · rw [hfr]
        rw [hdr] at hr
        simpa using hr.2

theorem formatUSDC_parse_core (i f : List Char) (hi : i ≠ []) (hdi : i.all isDig = true)
    (hz : noLeadingZero i = true) (hdf : f.all isDig = true) (hf6 : f.length ≤ 6) :
    formatUSDCChars (digitsToNat (i ++ padEndZeros f 6)) 6 =
      (if (stripZerosRight f).isEmpty then i else i ++ '.' :: stripZerosRight f) := by
  have hpadlen : (padEndZeros f 6).length = 6 := by
    simp only [padEndZeros, List.length_append, List.length_replicate]
    omega
  have hall : (i ++ padEndZeros f 6).all isDig = true := by
    simp only [List.all_append, Bool.and_eq_true]
    refine ⟨hdi, ?_⟩
    simp only [padEndZeros, List.all_append, Bool.and_eq_true]
    refine ⟨hdf, List.all_eq_true.mpr ?_⟩
    intro x hx
    rw [List.eq_of_mem_replicate hx]
    decide
  have hlen : (i ++ padEndZeros f 6).length = i.length + 6 := by
    simp [hpadlen]
  have hs : padStartZeros (natToChars (digitsToNat (i ++ padEndZeros f 6))) 7
      = i ++ padEndZeros f 6 := by
    obtain ⟨c, it, rfl⟩ : ∃ c it, i = c :: it := by
      cases i with
      | nil => exact absurd rfl hi
      | cons c it => exact ⟨c, it, rfl⟩
    cases it with
    | nil =>
      have h7 : (c :: ([] : List Char) ++ padEndZeros f 6).length = 7 := by
        simpa using hlen
      rw [← h7]
      exact padStart_natToChars _ (by simp) hall
    | cons a it2 =>
      have hc : c ≠ '0' := by simpa [noLeadingZero] using hz
      have htail : (c :: (a :: it2 ++ padEndZeros f 6)) = (c :: a :: it2) ++ padEndZeros f 6 := by
        simp
      rw [← htail] at hall ⊢
      rw [natToChars_dton c _ hall hc]
      simp only [padStartZeros]
      have hge : 7 ≤ (c :: (a :: it2 ++ padEndZeros f 6)).length := by
        simp [hpadlen]
      have h0 : 7 - (c :: (a :: it2 ++ padEndZeros f 6)).length = 0 := by omega
      rw [h0]
      simp
  simp only [formatUSDCChars, hs, hlen]
  have htk : i.length + 6 - 6 = i.length := by omega
  rw [htk, List.take_left, List.drop_left]
  have hstrip : stripZerosRight (padEndZeros f 6) = stripZerosRight f := by
    simp only [padEndZeros]
    exact strip_append_zeros f (6 - f.length)
  rw [hstrip]
  have hslen : (stripZerosRight f).length ≤ 6 := le_trans (strip_length_le f) hf6
  rw [List.take_of_length_le hslen]

theorem amount_not_white (l : List Char) (h : matchAmountFormat l = true) :
    ∀ c ∈ l, isWhiteChar c = false := by
  obtain ⟨⟨_, hdi⟩, hcase⟩ := amount_decomp l h
  intro c hc
  rcases hcase with ⟨heq, _⟩ | ⟨heq, _, hdf⟩
  · rw [heq] at hc
    exact isDig_not_white c (List.all_eq_true.mp hdi c hc)
  · rw [heq] at hc
    rcases List.mem_append.mp hc with hc | hc
    · exact isDig_not_white c (List.all_eq_true.mp hdi c hc)
    · rcases List.mem_cons.mp hc with rfl | hc
      · decide
      · exact isDig_not_white c (List.all_eq_true.mp hdf c hc)

/-- Claim C6 (amended): for every valid decimal string with at most six
fractional digits, no surrounding whitespace and no superfluous leading zero
in its integer part, converting to base units and back with `maxDecimals = 6`
yields the string with trailing fractional zeros (and a then-empty fractional
part's dot) stripped. -/
theorem C6_roundtrip_amended (s : String) (h6 : validAmount6 s = true)
    (hz : noLeadingZero (intPartOf s.data) = true) :
    ∃ n, parseUSDC s = Except.ok n ∧ formatUSDC n 6 = specStripFrac s := by
  have hm : matchAmountFormat s.data = true := by
    simp only [validAmount6, Bool.and_eq_true] at h6
    exact h6.1
  have hf6 : (fracPartOf s.data).length ≤ 6 := by
    simp only [validAmount6, Bool.and_eq_true, decide_eq_true_eq] at h6
    exact h6.2
  have htrim : trimChars s.data = s.data := trim_id _ (amount_not_white _ hm)
  obtain ⟨⟨hi, hdi⟩, hcase⟩ := amount_decomp s.data hm
  have hdf : (fracPartOf s.data).all isDig = true := by
    rcases hcase with ⟨_, hf0⟩ | ⟨_, _, hdf⟩
    · rw [hf0]; rfl
    · exact hdf
  refine ⟨digitsToNat (intPartOf s.data ++ padEndZeros (fracPartOf s.data) 6), ?_, ?_⟩
  · simp [parseUSDC, parseUSDCChars, htrim, hm, Nat.not_lt.mpr hf6]
  · simp only [formatUSDC, specStripFrac]
    rw [formatUSDC_parse_core _ _ hi hdi hz hdf hf6]

/-- Claim C6, as stated, fails on inputs whose integer part carries leading
zeros: `"007.50"` parses to `7500000` but formats back to `"7.5"`, not to
`"007.5"` (the claim's "`s` with trailing fractional zeros stripped"). -/
theorem C6_counterexample :
    parseUSDC "007.50" = Except.ok 7500000 ∧ formatUSDC 7500000 6 = "7.5" ∧
      specStripFrac "007.50" = "007.5" ∧ ("7.5" : String) ≠ "007.5" :=
  ⟨rfl, by decide, by decide, by decide⟩

/-- Witness for `C6_roundtrip_amended` at the spec's own example `"100.50"`. -/
theorem C6_witness :
    validAmount6 "100.50" = true ∧
      noLeadingZero (intPartOf ("100.50" : String).data) = true ∧
      ∃ n, parseUSDC "100.50" = Except.ok n ∧ formatUSDC n 6 = specStripFrac "100.50" :=
  ⟨by decide, by decide, C6_roundtrip_amended "100.50" (by decide) (by decide)⟩

theorem dton_pad6 (i f : List Char) (hf : f.length ≤ 6) :
    digitsToNat (i ++ padEndZeros f 6) =
      digitsToNat i * 10 ^ 6 + digitsToNat f * 10 ^ (6 - f.length) := by
  rw [dton_append]
  have hlen : (padEndZeros f 6).length = 6 := by
    simp only [padEndZeros, List.length_append, List.length_replicate]
    omega
  rw [hlen]
  congr 1
  rw [padEndZeros, dton_append, dton_replicate_zero, List.length_replicate]
  omega

theorem dton_pos_iff (l : List Char) (hd : l.all isDig = true) :
    0 < digitsToNat l ↔ l.any (fun c => isDig c && c ≠ '0') = true := by
  induction l with
  | nil => simp [digitsToNat]
  | cons c t ih =>
    simp only [List.all_cons, Bool.and_eq_true] at hd
    rw [dton_cons, List.any_cons]
    have hpow : 0 < 10 ^ t.length := Nat.pos_pow_of_pos _ (by norm_num)
    have hsplit : 0 < charVal c * 10 ^ t.length + digitsToNat t ↔
        0 < charVal c ∨ 0 < digitsToNat t := by
      constructor
      · intro h
        by_contra hc
        push_neg at hc
        obtain ⟨h1, h2⟩ := hc
        have e1 : charVal c = 0 := by omega
        have e2 : digitsToNat t = 0 := by omega
        rw [e1, e2] at h
        simp at h
      · intro h
        rcases h with h | h
        · have := Nat.mul_pos h hpow
          omega
        · omega
    have hc0 : (0 < charVal c) ↔ (c ≠ '0') := by
      constructor
      · intro hpos hc
        subst hc
        have hz : charVal '0' = 0 := by decide
        omega
      · intro hne
        exact charVal_pos c hd.1 hne
    rw [hsplit, hc0, ih hd.2]
    simp [hd.1]

/-- Claim C8 (amended): `parseUSDC` fails with the invalid-format error for
every input whose *trimmed* form does not match `digits(.digits)?`, fails
with the too-many-decimals error when the fractional part exceeds 6 digits,
and otherwise returns the integer part concatenated with the fractional part
zero-padded to 6 digits, read as an exact integer (value form below). -/
theorem C8_parse_amended :
    (∀ s : String, matchAmountFormat (trimChars s.data) = false →
        parseUSDC s = Except.error "Failed to parse USDC amount: Invalid USDC amount format") ∧
      (∀ s : String, matchAmountFormat (trimChars s.data) = true →
        6 < (fracPartOf (trimChars s.data)).length →
        parseUSDC s = Except.error
          "Failed to parse USDC amount: USDC supports maximum 6 decimal places") ∧
      (∀ s : String, matchAmountFormat (trimChars s.data) = true →
        (fracPartOf (trimChars s.data)).length ≤ 6 →
        parseUSDC s = Except.ok
          (digitsToNat (intPartOf (trimChars s.data)) * 10 ^ 6 +
            digitsToNat (fracPartOf (trimChars s.data)) *
              10 ^ (6 - (fracPartOf (trimChars s.data)).length))) := by
  refine ⟨?_, ?_, ?_⟩
  · intro s hm
    simp [parseUSDC, parseUSDCChars, hm]
  · intro s hm h6
    simp [parseUSDC, parseUSDCChars, hm, h6]
  · intro s hm h6
    simp only [parseUSDC, parseUSDCChars, hm, Bool.not_true, Bool.false_eq_true,
      if_false, if_neg (Nat.not_lt.mpr h6)]
    rw [dton_pad6 _ _ h6]

/-- Claim C8, as stated, omits the trim: `" 1.5"` does not match the pattern
`digits(.digits)?` yet `parseUSDC` accepts it (after trimming). -/
theorem C8_counterexample :
    matchAmountFormat (" 1.5" : String).data = false ∧
      parseUSDC " 1.5" = Except.ok 1500000 :=
  ⟨by decide, rfl⟩

/-- Witness for `C8_parse_amended` at `"1x"`, `"1.1234567"` and `"100.50"`. -/
theorem C8_witness :
    parseUSDC "1x" = Except.error "Failed to parse USDC amount: Invalid USDC amount format" ∧
      parseUSDC "1.1234567" =
        Except.error "Failed to parse USDC amount: USDC supports maximum 6 decimal places" ∧
      parseUSDC "100.50" = Except.ok 100500000 := by
  refine ⟨C8_parse_amended.1 "1x" (by decide), C8_parse_amended.2.1 "1.1234567" (by decide) (by decide), ?_⟩
  have h := C8_parse_amended.2.2 "100.50" (by decide) (by decide)
  exact h.trans (congrArg Except.ok (by decide))

/-- Claim C9: `isValidUSDCAmount` is total and accepts exactly the strings
whose trimmed form parses to a strictly positive amount; the spec's example
values behave as stated. -/
theorem C9_isValid :
    (∀ s : String, isValidUSDCAmount s = true ↔ ∃ n, parseUSDC s = Except.ok n ∧ 0 < n) ∧
      isValidUSDCAmount "0" = false ∧ isValidUSDCAmount "-1" = false ∧
      isValidUSDCAmount "" = false ∧ isValidUSDCAmount "1.23456789" = false ∧
      isValidUSDCAmount "0.000001" = true := by
  refine ⟨?_, by decide, by decide, by decide, by decide, by decide⟩
  intro s
  by_cases hm : matchAmountFormat (trimChars s.data) = true
  · obtain ⟨⟨hi, hdi⟩, hcase⟩ := amount_decomp _ hm
    have hne : trimChars s.data ≠ [] := by
      intro h0
      rw [h0] at hi
      simp [intPartOf] at hi
    by_cases h6 : 6 < (fracPartOf (trimChars s.data)).length
    · have hL : isValidUSDCAmount s = false := by
        simp [isValidUSDCAmount, hm, h6, List.isEmpty_iff, hne]
      have hR : parseUSDC s = Except.error
          "Failed to parse USDC amount: USDC supports maximum 6 decimal places" := by
        simp [parseUSDC, parseUSDCChars, hm, h6]
      rw [hL, hR]
      simp
    · have hdf : (fracPartOf (trimChars s.data)).all isDig = true := by
        rcases hcase with ⟨_, hf0⟩ | ⟨_, _, hdf⟩
        · rw [hf0]; rfl
        · exact hdf
      have hall : (intPartOf (trimChars s.data) ++
          padEndZeros (fracPartOf (trimChars s.data)) 6).all isDig = true := by
        simp only [List.all_append, Bool.and_eq_true]
        refine ⟨hdi, ?_⟩
        simp only [padEndZeros, List.all_append, Bool.and_eq_true]
        refine ⟨hdf, List.all_eq_true.mpr ?_⟩
        intro x hx
        rw [List.eq_of_mem_replicate hx]
        decide
      have hparse : parseUSDC s = Except.ok
          (digitsToNat (intPartOf (trimChars s.data) ++
            padEndZeros (fracPartOf (trimChars s.data)) 6)) := by
        simp [parseUSDC, parseUSDCChars, hm, Nat.not_lt.mpr (Nat.le_of_not_lt h6)]
      have hL : isValidUSDCAmount s =
          (trimChars s.data).any (fun c => isDig c && c ≠ '0') := by
        simp [isValidUSDCAmount, hm, h6, List.isEmpty_iff, hne]
      have hany : (trimChars s.data).any (fun c => isDig c && c ≠ '0') =
          (intPartOf (trimChars s.data) ++
            padEndZeros (fracPartOf (trimChars s.data)) 6).any
              (fun c => isDig c && c ≠ '0') := by
        have hrep : (List.replicate (6 - (fracPartOf (trimChars s.data)).length) '0').any
            (fun c => isDig c && c ≠ '0') = false := by
          rw [List.any_eq_false]
          intro x hx
          rw [List.eq_of_mem_replicate hx]
          decide
        rcases hcase with ⟨heq, hf0⟩ | ⟨heq, _, _⟩
        · conv_lhs => rw [heq]
          simp [padEndZeros, hf0, List.any_append, hrep]
        · conv_lhs => rw [heq]
          simp only [padEndZeros, List.any_append, List.any_cons]
          have hdot : (isDig '.' && decide ('.' ≠ '0')) = false := by decide
          rw [hdot]
          simp [hrep]
      rw [hL, hany, hparse]
      constructor
      · intro h
        exact ⟨_, rfl, (dton_pos_iff _ hall).mpr h⟩
      · rintro ⟨n, hn, hp⟩
        have := Except.ok.inj hn
        subst this
        exact (dton_pos_iff _ hall).mp hp
  · have hL : isValidUSDCAmount s = false := by
      simp only [isValidUSDCAmount, Bool.not_eq_true] at hm ⊢
      simp [hm]
    have hm2 : matchAmountFormat (trimChars s.data) = false := by simpa using hm
    have hR : parseUSDC s = Except.error
        "Failed to parse USDC amount: Invalid USDC amount format" := by
      simp [parseUSDC, parseUSDCChars, hm2]
    rw [hL, hR]
    simp

/-! ### Bridge orchestrator — `src/services/bridge.ts`

Progress events carry a step name, a state and an optional transaction
hash.  Thrown JS errors are embedded as a message plus the (possibly empty)
`logs` array inspected by `extractSolanaSimulationLogs`; `error instanceof
Error` always holds for the errors this service handles, so re-throws are
embedded as plain message strings.  JS truthiness of an optional hash
(`undefined` and `''` are falsy) is `truthyHash`. -/

inductive EvState
  | pending
  | success
  | error
  | noop
deriving DecidableEq, Repr

structure ProgressEvent where
  step : String
  state : EvState
  txHash : Option String
deriving DecidableEq, Repr

structure JsError where
  message : String
  logs : List String
deriving DecidableEq, Repr

/-- Outcome of one invocation of an `execute()`-driven operation: either a
resolved transaction hash, or a thrown error together with the hash (if any)
that the still-running `execute` promise had stored into the enclosing
`lastTxHash` variable by the time the error was handled. -/
inductive AttemptOutcome
  | ok (hash : String)
  | err (e : JsError) (observed : Option String)

/-- JS truthiness of a possibly-absent hash string. -/
def truthyHash : Option String → Bool
  | none => false
  | some h => h ≠ ""

/-- Embedding of `isSolanaTxExpiredError` (the ambiguous-expiry classifier). -/
def isSolanaTxExpiredError (message : String) : Bool :=
  strHasSub message "block height exceeded" || strHasSub message "BlockheightExceeded" ||
    strHasSub message "Signature has expired" || strHasSub message "signature has expired" ||
    strHasSub message "Blockhash not found" || strHasSub message "blockhash not found" ||
    strHasSub message "has expired"

/-- Embedding of `isSolanaChain`: the chain id contains `solana`. -/
def isSolanaChain (chainId : String) : Bool := strHasSub (lowerStr chainId) "solana"

/-- A `\w` word character, for the `/Wallet: (\w+)/` capture. -/
def isWordChar (c : Char) : Bool :=
  isDig c || (65 ≤ c.toNat && c.toNat ≤ 90) || (97 ≤ c.toNat && c.toNat ≤ 122) || c = '_'

/-- Leftmost match of `/Wallet: (\w+)/`: the word following the first
occurrence of `Wallet: ` that is followed by at least one word character. -/
def findWalletWord : List Char → Option (List Char)
  | [] => none
  | c :: rest =>
    if ("Wallet: ".data.isPrefixOf (c :: rest) &&
        (((c :: rest).drop 8).headD ' ' |> isWordChar)) then
      some (((c :: rest).drop 8).takeWhile isWordChar)
    else
      findWalletWord rest

/-- Embedding of `extractSolanaSimulationLogs`: the embedded error carries
its simulation logs (from whichever of the inspected fields held them) in
`logs`; an empty array and an absent field are indistinguishable to the
caller, which only checks `logs.length === 0`. -/
def extractSolanaSimulationLogs (e : JsError) : List String := e.logs

/-- Embedding of `formatEvmMintError`. -/
def formatEvmMintError (message : String) : String :=
  if strHasSub message "insufficient funds" then
    "Insufficient ETH/native token for gas fees.\n\nPlease add native tokens to your wallet and try again."
  else if strHasSub message "user rejected" || strHasSub message "User denied" then
    "Transaction was rejected by user."
  else if strHasSub message "nonce too low" || strHasSub message "replacement transaction" then
    "Transaction nonce conflict.\n\nPlease wait a moment and try again."
  else if strHasSub message "already known" || strHasSub message "already redeemed" ||
      strHasSub message "message already received" then
    "USDC has already been minted to the destination address.\n\nCheck your destination wallet - the transfer may have completed successfully."
  else if strHasSub message "execution reverted" then
    "Smart contract execution reverted.\n\nThis may indicate:\n1. Message not yet attested (wait 10-20 mins)\n2. Invalid attestation data\n3. Message already consumed\n\nTry using recovery mode to retry."
  else
    message

/-- The Phantom-disconnect remediation text shared by the two Solana formatters. -/
def phantomDisconnectText : String :=
  "Phantom Wallet Connection Lost:\n\nPlease refresh the page and try again.\nIf the issue persists, try:\n1. Restarting the Phantom extension\n2. Clearing browser cache\n3. Using a different browser"

/-- Embedding of `formatSolanaMintError`. -/
def formatSolanaMintError (e : JsError) : String :=
  let message := e.message
  if strHasSub message "disconnected port" ||
      strHasSub message "Attempting to use a disconnected port" then
    phantomDisconnectText
  else if strHasSub message "InsufficientFundsForRent" then
    "Insufficient SOL for Transaction:\n\nYour Solana wallet needs at least 0.002 SOL to cover:\n- Transaction fees (~0.0001 SOL)\n- Rent for temporary accounts (~0.0015 SOL)\n\nPlease add some SOL to your wallet and try again.\n\nWallet: " ++
      (match findWalletWord message.data with
        | some w => String.mk w
        | none => "Unknown")
  else if strHasSub message "Custom" && strHasSub message "0" then
    "CCTP Mint Failed: This usually means:\n1. Attestation not yet available (wait 10-20 mins after burn)\n2. Message already redeemed (USDC already minted)\n3. Invalid message parameters\n\nTry recovery mode after waiting, or check destination wallet for funds.\n\nOriginal error: " ++
      message
  else if strHasSub message "InstructionError" then
    "Solana Transaction Failed: " ++ message ++
      "\n\nThis may be a temporary issue. Try recovery mode to retry the mint step."
  else if (extractSolanaSimulationLogs e).length = 0 then
    message
  else
    message ++ "\n\nSolana simulation logs:\n" ++
      String.intercalate "\n"
        ((extractSolanaSimulationLogs e).drop ((extractSolanaSimulationLogs e).length - 25))

/-- Embedding of `formatSolanaBurnError`. -/
def formatSolanaBurnError (e : JsError) : String :=
  let message := e.message
  if strHasSub message "disconnected port" ||
      strHasSub message "Attempting to use a disconnected port" then
    phantomDisconnectText
  else if strHasSub message "InsufficientFundsForRent" || strHasSub message "insufficient" then
    "Insufficient SOL for Burn Transaction:\n\nYour Solana wallet needs at least 0.005 SOL to cover:\n- Transaction fees (~0.0001 SOL)\n- Rent for CCTP accounts (~0.004 SOL)\n\nPlease add some SOL to your wallet and try again."
  else if strHasSub message "block height exceeded" || strHasSub message "has expired" then
    "Transaction Signature Expired:\n\nThe transaction took too long to confirm.\nThis usually happens when the network is congested.\n\nThe burn will be retried automatically (attempt 1-3)."
  else
    formatSolanaMintError e

/-! ### Retry loop, burn, attestation, mint, approve -/

/-- Embedding of `executeWithRetry` specialised to hash-returning operations.
`beh k` is the outcome of the `k`-th invocation of the operation (1-based);
the `fuel` argument counts the attempts still allowed including the current
one, so the source's `attempt < maxAttempts` is `fuel ≠ 1` here.  The loop
also threads the enclosing `lastTxHash` variable (`last`), updated with any
hash a failing attempt had observed.  The source's `lastResult` check inside
`catch` is unreachable (a stored result is returned immediately), and the
post-loop `throw lastError ?? ...` is reachable only with a zero attempt
budget, where `lastError` is still `undefined`.  Returns the loop outcome,
the index of the last attempt executed and the final `lastTxHash`. -/
def executeWithRetry (beh : Nat → AttemptOutcome) :
    Nat → Nat → Option String → Except JsError String × Nat × Option String
  | 0, attempt, last =>
    (Except.error { message := "Operation failed after retries", logs := [] },
      attempt - 1, last)
  | fuel + 1, attempt, last =>
    match beh attempt with
    | AttemptOutcome.ok h => (Except.ok h, attempt, some h)
    | AttemptOutcome.err e obs =>
      let last2 := match obs with
        | some h => some h
        | none => last
      if isSolanaTxExpiredError e.message && fuel ≠ 0 then
        executeWithRetry beh fuel (attempt + 1) last2
      else
        (Except.error e, attempt, last2)

/-- Embedding of `executeBurn`: up to 3 attempts through `executeWithRetry`;
a final ambiguous-expiry failure with an observed (truthy) hash is converted
into success with that hash; other failures are formatted by
`formatSolanaBurnError`.  Returns the outcome, the number of burn-submission
attempts made and the emitted progress events. -/
def executeBurn (beh : Nat → AttemptOutcome) :
    Except String String × Nat × List ProgressEvent :=
  let out := executeWithRetry beh 3 1 none
  let n := out.2.1
  let last := out.2.2
  match out.1 with
  | Except.ok h =>
    (Except.ok h, n,
      [⟨"burn", EvState.pending, none⟩, ⟨"burn", EvState.success, some h⟩])
  | Except.error e =>
    if truthyHash last && isSolanaTxExpiredError e.message then
      (Except.ok (last.getD ""), n,
        [⟨"burn", EvState.pending, none⟩, ⟨"burn", EvState.success, last⟩])
    else
      (Except.error (formatSolanaBurnError e), n,
        [⟨"burn", EvState.pending, none⟩, ⟨"burn", EvState.error, none⟩])

/-- The attestation payload: the optional-chaining path
`decodedMessage?.decodedMessageBody?.mintRecipient` of the object returned
by the attestation service. -/
structure MessageBody where
  mintRecipient : Option String
deriving DecidableEq, Repr

structure DecodedMessage where
  decodedMessageBody : Option MessageBody
deriving DecidableEq, Repr

structure Attestation where
  decodedMessage : Option DecodedMessage
deriving DecidableEq, Repr

/-- Embedding of `fetchAttestation`: pending event, then the provider call
(whose polling is internal); a success event only when it returns. -/
def fetchAttestation (res : Except String Attestation) :
    Except String Attestation × List ProgressEvent :=
  match res with
  | Except.ok a =>
    (Except.ok a,
      [⟨"fetchAttestation", EvState.pending, none⟩,
        ⟨"fetchAttestation", EvState.success, none⟩])
  | Except.error m =>
    (Except.error m, [⟨"fetchAttestation", EvState.pending, none⟩])

/-- Embedding of `extractRecipientFromAttestation`; `!recipient` also
rejects an empty string. -/
def extractRecipientFromAttestation (a : Attestation) : Except String String :=
  match (a.decodedMessage.bind fun d => d.decodedMessageBody).bind
      (fun b => b.mintRecipient) with
  | some r =>
    if r = "" then
      Except.error "Cannot extract mint recipient from attestation. Invalid burn transaction."
    else
      Except.ok r
  | none =>
    Except.error "Cannot extract mint recipient from attestation. Invalid burn transaction."

/-- The `catch` condition of priority 2: `(Custom && 0) || already redeemed ||
message already received` — the already-redeemed error class. -/
def alreadyRedeemedClass (message : String) : Bool :=
  (strHasSub message "Custom" && strHasSub message "0") ||
    strHasSub message "already redeemed" || strHasSub message "message already received"

/-- The `catch` condition of priority 3: the message mentions a timeout. -/
def timeoutClass (message : String) : Bool :=
  strHasSub message "timeout" || strHasSub message "Timeout"

/-- Embedding of `executeMint`: a single attempt (`maxAttempts = 1`), then
the priority-ordered outcome resolution of the `catch` block.  On the
success path the source returns `hash || lastTxHash || 'mint-completed'`,
which collapses to the hash when it is truthy (both are the same resolved
value).  Returns the outcome and the emitted progress events. -/
def executeMint (isSolana : Bool) (att : AttemptOutcome) :
    Except String String × List ProgressEvent :=
  match att with
  | AttemptOutcome.ok h =>
    let h2 := if h = "" then "mint-completed" else h
    (Except.ok h2, [⟨"mint", EvState.pending, none⟩, ⟨"mint", EvState.success, some h2⟩])
  | AttemptOutcome.err e obs =>
    if truthyHash obs then
      (Except.ok (obs.getD ""),
        [⟨"mint", EvState.pending, none⟩, ⟨"mint", EvState.success, obs⟩])
    else if alreadyRedeemedClass e.message then
      (Except.ok "mint-already-completed",
        [⟨"mint", EvState.pending, none⟩,
          ⟨"mint", EvState.success, some "mint-already-completed"⟩])
    else if timeoutClass e.message then
      (Except.ok "mint-check-wallet",
        [⟨"mint", EvState.pending, none⟩,
          ⟨"mint", EvState.success, some "mint-check-wallet"⟩])
    else if isSolana && isSolanaTxExpiredError e.message then
      (Except.ok "mint-signature-expired",
        [⟨"mint", EvState.pending, none⟩,
          ⟨"mint", EvState.success, some "mint-signature-expired"⟩])
    else
      (Except.error (if isSolana then formatSolanaMintError e else formatEvmMintError e.message),
        [⟨"mint", EvState.pending, none⟩, ⟨"mint", EvState.error, none⟩])

/-- The four outcomes of the approve step's external calls: `provider.approve`
throwing, returning `null` (no allowance needed), or returning a request whose
`execute()` succeeds or throws. -/
inductive ApproveBehavior
  | buildThrow (msg : String)
  | notNeeded
  | execOk
  | execThrow (msg : String)

/-- Embedding of `executeApprove`: a named-Solana source chain is a `noop`
without touching the provider; otherwise pending, then `noop` / `success` /
a propagated throw. -/
def executeApprove (sourceChainName : String) (b : ApproveBehavior) :
    Except String Unit × List ProgressEvent :=
  if strHasSub (lowerStr sourceChainName) "solana" then
    (Except.ok (), [⟨"approve", EvState.noop, none⟩])
  else
    match b with
    | ApproveBehavior.buildThrow m =>
      (Except.error m, [⟨"approve", EvState.pending, none⟩])
    | ApproveBehavior.notNeeded =>
      (Except.ok (), [⟨"approve", EvState.pending, none⟩, ⟨"approve", EvState.noop, none⟩])
    | ApproveBehavior.execOk =>
      (Except.ok (), [⟨"approve", EvState.pending, none⟩, ⟨"approve", EvState.success, none⟩])
    | ApproveBehavior.execThrow m =>
      (Except.error m, [⟨"approve", EvState.pending, none⟩])

/-! ### Chain tables, adapters and the two orchestrator entry points -/

/-- The bridge-kit chain definition, reduced to the fields this service
reads: identity (for the reverse lookups) and the display name inspected by
`executeApprove`. -/
structure ChainDefinition where
  key : String
  name : String
deriving DecidableEq, Repr

/-- The composition of `mapAppChainIdToBlockchain` and
`mapBlockchainToDefinition`: the ten supported app-level chain ids and their
bridge-kit definitions (names as published by `@circle-fin/bridge-kit`). -/
def chainTable : List (String × ChainDefinition) :=
  [("ethereum-mainnet", ⟨"ethereum-mainnet", "Ethereum"⟩),
    ("polygon-mainnet", ⟨"polygon-mainnet", "Polygon"⟩),
    ("arbitrum-mainnet", ⟨"arbitrum-mainnet", "Arbitrum"⟩),
    ("base-mainnet", ⟨"base-mainnet", "Base"⟩),
    ("solana-mainnet", ⟨"solana-mainnet", "Solana"⟩),
    ("ethereum-sepolia", ⟨"ethereum-sepolia", "Ethereum Sepolia"⟩),
    ("polygon-amoy", ⟨"polygon-amoy", "Polygon Amoy"⟩),
    ("arbitrum-sepolia", ⟨"arbitrum-sepolia", "Arbitrum Sepolia"⟩),
    ("base-sepolia", ⟨"base-sepolia", "Base Sepolia"⟩),
    ("solana-devnet", ⟨"solana-devnet", "Solana Devnet"⟩)]

/-- Embedding of `getChainDefinition` (throws `Unsupported chain: ...` for
an id outside the table). -/
def getChainDefinition (chainId : String) : Except String ChainDefinition :=
  match (chainTable.find? fun p => p.1 = chainId) with
  | some p => Except.ok p.2
  | none => Except.error ("Unsupported chain: " ++ chainId)

/-- Embedding of `createAdapter`: requires the wallet capability of the
chain's execution category (after the source's window fallbacks). -/
def createAdapter (chainId : String) (isSolana evmWallet solanaWallet : Bool) :
    Except String Unit :=
  if isSolana then
    if solanaWallet then Except.ok ()
    else Except.error ("Solana wallet not connected for " ++ chainId)
  else
    if evmWallet then Except.ok ()
    else Except.error ("EVM wallet not connected for " ++ chainId)

/-- Environment of one orchestration call: which wallet capabilities resolve,
the adapter `getAddress` results, and the outcomes of the approve, burn,
attestation and mint externals. -/
structure TransferEnv where
  evmWallet : Bool
  solanaWallet : Bool
  sourceAddress : Except String String
  destAddress : Except String String
  approve : ApproveBehavior
  burn : Nat → AttemptOutcome
  attestation : Except String Attestation
  mint : AttemptOutcome

structure StepRecord where
  name : String
  state : String
  txHash : Option String
  data : Option Attestation
deriving DecidableEq, Repr

structure EndpointRecord where
  address : String
  chain : ChainDefinition
deriving DecidableEq, Repr

structure BridgeResult where
  amount : Nat
  token : String
  state : String
  provider : String
  source : EndpointRecord
  destination : EndpointRecord
  steps : List StepRecord
deriving DecidableEq, Repr

/-- Embedding of `createSuccessResult`. -/
def createSuccessResult (amount : Nat) (sourceAddress : String)
    (sourceChainDef : ChainDefinition) (recipientAddress : String)
    (destChainDef : ChainDefinition) (burnTxHash mintTxHash : String)
    (attestation : Attestation) : BridgeResult :=
  { amount := amount
    token := "USDC"
    state := "success"
    provider := "CCTPV2BridgingProvider"
    source := ⟨sourceAddress, sourceChainDef⟩
    destination := ⟨recipientAddress, destChainDef⟩
    steps :=
      [⟨"approve", "noop", none, none⟩,
        ⟨"burn", "success", some burnTxHash, none⟩,
        ⟨"fetchAttestation", "success", none, some attestation⟩,
        ⟨"mint", "success", some mintTxHash, none⟩] }

structure BridgeParams where
  sourceChainId : String
  destChainId : String
  amount : String
  recipientAddress : String

/-- Embedding of `bridgeUSDC` (`transfer()`): validation, adapters and
addresses, then approve → burn → attestation → mint, assembling
`createSuccessResult`; any step throw propagates with the events emitted so
far (the `finally` drain delay has no observable effect here). -/
def bridgeUSDC (p : BridgeParams) (env : TransferEnv) :
    Except String BridgeResult × List ProgressEvent :=
  if p.recipientAddress = "" then
    (Except.error "Recipient address is required", [])
  else
    match parseUSDC p.amount with
    | Except.error m => (Except.error m, [])
    | Except.ok amountBaseUnits =>
      match createAdapter p.sourceChainId (isSolanaChain p.sourceChainId)
          env.evmWallet env.solanaWallet with
      | Except.error m => (Except.error m, [])
      | Except.ok _ =>
        match createAdapter p.destChainId (isSolanaChain p.destChainId)
            env.evmWallet env.solanaWallet with
        | Except.error m => (Except.error m, [])
        | Except.ok _ =>
          match getChainDefinition p.sourceChainId with
          | Except.error m => (Except.error m, [])
          | Except.ok sourceChainDef =>
            match env.sourceAddress with
            | Except.error m => (Except.error m, [])
            | Except.ok sourceAddress =>
              match getChainDefinition p.destChainId with
              | Except.error m => (Except.error m, [])
              | Except.ok destChainDef =>
                match env.destAddress with
                | Except.error m => (Except.error m, [])
                | Except.ok _destAddress =>
                  match executeApprove sourceChainDef.name env.approve with
                  | (Except.error m, evA) => (Except.error m, evA)
                  | (Except.ok _, evA) =>
                    match executeBurn env.burn with
                    | (Except.error m, _, evB) => (Except.error m, evA ++ evB)
                    | (Except.ok burnTxHash, _, evB) =>
                      match fetchAttestation env.attestation with
                      | (Except.error m, evF) => (Except.error m, evA ++ evB ++ evF)
                      | (Except.ok att, evF) =>
                        match executeMint (isSolanaChain p.destChainId) env.mint with
                        | (Except.error m, evM) =>
                          (Except.error m, evA ++ evB ++ evF ++ evM)
                        | (Except.ok mintTxHash, evM) =>
                          (Except.ok (createSuccessResult amountBaseUnits sourceAddress
                              sourceChainDef p.recipientAddress destChainDef burnTxHash
                              mintTxHash att),
                            evA ++ evB ++ evF ++ evM)

/-- `^[a-fA-F0-9]$`: a hexadecimal digit character. -/
def isHexDigit (c : Char) : Bool :=
  isDig c || (97 ≤ c.toNat && c.toNat ≤ 102) || (65 ≤ c.toNat && c.toNat ≤ 70)

/-- Leftmost match of the search regex `/0x[a-fA-F0-9]{64}/`. -/
def findHexMatch : List Char → Option (List Char)
  | [] => none
  | c :: rest =>
    if c = '0' && rest.take 1 = ['x'] && ((rest.drop 1).take 64).length = 64 &&
        ((rest.drop 1).take 64).all isHexDigit then
      some ('0' :: 'x' :: (rest.drop 1).take 64)
    else
      findHexMatch rest

/-- The full-match test `^0x[a-fA-F0-9]{64}$`. -/
def isFullEvmHash (l : List Char) : Bool :=
  l.length = 66 && l.take 2 = ['0', 'x'] && (l.drop 2).all isHexDigit

/-- Embedding of `normalizeEvmTxHash`: trim, extract the first embedded
`0x` + 64-hex run (falling back to the whole trimmed input), validate the
full shape, and lowercase the hex digits. -/
def normalizeEvmTxHash (input : String) : Except String String :=
  let trimmed := trimChars input.data
  let hash := (findHexMatch trimmed).getD trimmed
  if isFullEvmHash hash then
    Except.ok (String.mk ('0' :: 'x' :: (hash.drop 2).map lowerChar))
  else
    Except.error "Invalid transaction hash format. Expected 0x + 64 hex characters."

structure RecoverParams where
  sourceTxHash : String
  sourceChainId : String
  destChainId : String
  amount : String

/-- Embedding of `recoverTransfer` (`recover()`): resolve the source chain,
normalize the supplied transaction identifier per execution category, parse
the amount, resolve adapters and addresses, fetch the attestation, extract
the authoritative recipient from it, then mint and assemble the result. -/
def recoverTransfer (p : RecoverParams) (env : TransferEnv) :
    Except String BridgeResult × List ProgressEvent :=
  match getChainDefinition p.sourceChainId with
  | Except.error m => (Except.error m, [])
  | Except.ok sourceChainDef =>
    match (if isSolanaChain p.sourceChainId then
        Except.ok (String.mk (trimChars p.sourceTxHash.data))
      else normalizeEvmTxHash p.sourceTxHash) with
    | Except.error m => (Except.error m, [])
    | Except.ok normalizedTxHash =>
      match parseUSDC p.amount with
      | Except.error m => (Except.error m, [])
      | Except.ok amountBaseUnits =>
        match createAdapter p.sourceChainId (isSolanaChain p.sourceChainId)
            env.evmWallet env.solanaWallet with
        | Except.error m => (Except.error m, [])
        | Except.ok _ =>
          match createAdapter p.destChainId (isSolanaChain p.destChainId)
              env.evmWallet env.solanaWallet with
          | Except.error m => (Except.error m, [])
          | Except.ok _ =>
            match env.sourceAddress with
            | Except.error m => (Except.error m, [])
            | Except.ok sourceAddress =>
              match getChainDefinition p.destChainId with
              | Except.error m => (Except.error m, [])
              | Except.ok destChainDef =>
                match fetchAttestation env.attestation with
                | (Except.error m, evF) => (Except.error m, evF)
                | (Except.ok att, evF) =>
                  match extractRecipientFromAttestation att with
                  | Except.error m => (Except.error m, evF)
                  | Except.ok recipientAddress =>
                    match env.destAddress with
                    | Except.error m => (Except.error m, evF)
                    | Except.ok _destAddress =>
                      match executeMint (isSolanaChain p.destChainId) env.mint with
                      | (Except.error m, evM) => (Except.error m, evF ++ evM)
                      | (Except.ok mintTxHash, evM) =>
                        (Except.ok (createSuccessResult amountBaseUnits sourceAddress
                            sourceChainDef recipientAddress destChainDef normalizedTxHash
                            mintTxHash att),
                          evF ++ evM)

/-! ### Session store — `src/state/transfer.store.ts`

The `onProgress` reducers of `initiateTransfer` and `recoverTransfer` map
progress events onto the session's coarse status.  The session record is
reduced to the fields the reducers touch (`status`, `sourceTxHash`,
`destTxHash`); the identifiers and amount are fixed for the whole call. -/

inductive TxStatus
  | PENDING
  | BURNING
  | BURNED
  | ATTESTING
  | ATTESTED
  | MINTING
  | MINTED
  | COMPLETED
  | FAILED
  | EXPIRED
deriving DecidableEq, Repr

/-- Position of a status in the documented forward chain
`PENDING → BURNING → BURNED → ATTESTING → ATTESTED → MINTING → COMPLETED`
(`MINTED` is only broadcast by the gateway socket and never set by these
reducers; `FAILED`/`EXPIRED` are the terminal failure states). -/
def statusRank : TxStatus → Nat
  | TxStatus.PENDING => 0
  | TxStatus.BURNING => 1
  | TxStatus.BURNED => 2
  | TxStatus.ATTESTING => 3
  | TxStatus.ATTESTED => 4
  | TxStatus.MINTING => 5
  | TxStatus.MINTED => 6
  | TxStatus.COMPLETED => 7
  | TxStatus.FAILED => 8
  | TxStatus.EXPIRED => 9

/-- The documented next forward state, if any. -/
def nextForward : TxStatus → Option TxStatus
  | TxStatus.PENDING => some TxStatus.BURNING
  | TxStatus.BURNING => some TxStatus.BURNED
  | TxStatus.BURNED => some TxStatus.ATTESTING
  | TxStatus.ATTESTING => some TxStatus.ATTESTED
  | TxStatus.ATTESTED => some TxStatus.MINTING
  | TxStatus.MINTING => some TxStatus.COMPLETED
  | _ => none

structure StoreState where
  status : TxStatus
  sourceTxHash : Option String
  destTxHash : Option String
deriving DecidableEq, Repr

/-- `event.step.toLowerCase().includes(pat)`. -/
def stepHas (step pat : String) : Bool := strHasSub (lowerStr step) pat

/-- The `onProgress` reducer of `initiateTransfer`.  In the `pending` branch
the three `if`s run in sequence (the last matching one wins); in the
`success` branch the `else if` chain gives the burn match priority; the
returned record keeps an old hash when the event's is falsy. -/
def reduceTransfer (st : StoreState) (e : ProgressEvent) : StoreState :=
  let isBurn := stepHas e.step "burn" || stepHas e.step "deposit"
  let isAtt := stepHas e.step "attestation"
  let isMint := stepHas e.step "mint" || stepHas e.step "receive"
  let afterPending :=
    if e.state = EvState.pending then
      if isMint then TxStatus.MINTING
      else if isAtt then TxStatus.ATTESTING
      else if isBurn then TxStatus.BURNING
      else st.status
    else st.status
  let out :=
    if e.state = EvState.success then
      if isBurn then (TxStatus.BURNED, e.txHash, st.destTxHash)
      else if isAtt then (TxStatus.ATTESTED, st.sourceTxHash, st.destTxHash)
      else if isMint then (TxStatus.COMPLETED, st.sourceTxHash, e.txHash)
      else (afterPending, st.sourceTxHash, st.destTxHash)
    else (afterPending, st.sourceTxHash, st.destTxHash)
  { status := out.1
    sourceTxHash := if truthyHash out.2.1 then out.2.1 else st.sourceTxHash
    destTxHash := if truthyHash out.2.2 then out.2.2 else st.destTxHash }

/-- The `onProgress` reducer of the store's `recoverTransfer`: no burn
branch; in both branches the sequential `if`s give the mint match priority;
`sourceTxHash` is never touched. -/
def reduceRecover (st : StoreState) (e : ProgressEvent) : StoreState :=
  let isAtt := stepHas e.step "attestation"
  let isMint := stepHas e.step "mint" || stepHas e.step "receive"
  let afterPending :=
    if e.state = EvState.pending then
      if isMint then TxStatus.MINTING
      else if isAtt then TxStatus.ATTESTING
      else st.status
    else st.status
  let out :=
    if e.state = EvState.success then
      if isMint then (TxStatus.COMPLETED, e.txHash)
      else if isAtt then (TxStatus.ATTESTED, st.destTxHash)
      else (afterPending, st.destTxHash)
    else (afterPending, st.destTxHash)
  { status := out.1
    sourceTxHash := st.sourceTxHash
    destTxHash := if truthyHash out.2 then out.2 else st.destTxHash }

/-- Claim-side: one consumed event moves the status to itself, to a state
strictly later in the forward order, or to a terminal failure state. -/
def stepForwardOK (s s2 : TxStatus) : Bool :=
  s2 = s || statusRank s < statusRank s2 || s2 = TxStatus.FAILED || s2 = TxStatus.EXPIRED

/-- Claim-side: the literal reading of the claim — one consumed event moves
the status to itself, to the documented *next* forward state, or to a
terminal failure state. -/
def stepNextOK (s s2 : TxStatus) : Bool :=
  s2 = s || nextForward s = some s2 || s2 = TxStatus.FAILED || s2 = TxStatus.EXPIRED

/-- Folding a reducer over an event list never violates `ok` between
consecutive statuses. -/
def traceOK (ok : TxStatus → TxStatus → Bool)
    (red : StoreState → ProgressEvent → StoreState) :
    StoreState → List ProgressEvent → Bool
  | _, [] => true
  | st, e :: es => ok st.status (red st e).status && traceOK ok red (red st e) es

example :
    traceOK stepNextOK reduceTransfer ⟨TxStatus.PENDING, none, none⟩
      [⟨"mint", EvState.success, some "0xm"⟩, ⟨"burn", EvState.pending, none⟩] = false := by
  decide

example :
    traceOK stepForwardOK reduceTransfer ⟨TxStatus.PENDING, none, none⟩
      [⟨"approve", EvState.noop, none⟩, ⟨"burn", EvState.pending, none⟩,
        ⟨"burn", EvState.success, some "0xb"⟩, ⟨"fetchAttestation", EvState.pending, none⟩,
        ⟨"fetchAttestation", EvState.success, none⟩, ⟨"mint", EvState.pending, none⟩,
        ⟨"mint", EvState.success, some "0xm"⟩] = true := by
  decide

/-! ### Step-name classification facts and per-event reducer steps -/

@[simp] theorem stepHas_approve_burn : stepHas "approve" "burn" = false := by decide
@[simp] theorem stepHas_approve_deposit : stepHas "approve" "deposit" = false := by decide
@[simp] theorem stepHas_approve_att : stepHas "approve" "attestation" = false := by decide
@[simp] theorem stepHas_approve_mint : stepHas "approve" "mint" = false := by decide
@[simp] theorem stepHas_approve_receive : stepHas "approve" "receive" = false := by decide
@[simp] theorem stepHas_burn_burn : stepHas "burn" "burn" = true := by decide
@[simp] theorem stepHas_burn_deposit : stepHas "burn" "deposit" = false := by decide
@[simp] theorem stepHas_burn_att : stepHas "burn" "attestation" = false := by decide
@[simp] theorem stepHas_burn_mint : stepHas "burn" "mint" = false := by decide
@[simp] theorem stepHas_burn_receive : stepHas "burn" "receive" = false := by decide
@[simp] theorem stepHas_fa_burn : stepHas "fetchAttestation" "burn" = false := by decide
@[simp] theorem stepHas_fa_deposit : stepHas "fetchAttestation" "deposit" = false := by decide
@[simp] theorem stepHas_fa_att : stepHas "fetchAttestation" "attestation" = true := by decide
@[simp] theorem stepHas_fa_mint : stepHas "fetchAttestation" "mint" = false := by decide
@[simp] theorem stepHas_fa_receive : stepHas "fetchAttestation" "receive" = false := by decide
@[simp] theorem stepHas_mint_burn : stepHas "mint" "burn" = false := by decide
@[simp] theorem stepHas_mint_deposit : stepHas "mint" "deposit" = false := by decide
@[simp] theorem stepHas_mint_att : stepHas "mint" "attestation" = false := by decide
@[simp] theorem stepHas_mint_mint : stepHas "mint" "mint" = true := by decide
@[simp] theorem stepHas_mint_receive : stepHas "mint" "receive" = false := by decide

theorem redT_approve (st : StoreState) (stt : EvState) (h : Option String) :
    reduceTransfer st ⟨"approve", stt, h⟩ = st := by
  cases st
  cases stt <;> simp [reduceTransfer, ite_self]

theorem redT_burn_pending (st : StoreState) (h : Option String) :
    reduceTransfer st ⟨"burn", EvState.pending, h⟩ = { st with status := TxStatus.BURNING } := by
  cases st
  simp [reduceTransfer, ite_self]

theorem redT_burn_success (st : StoreState) (h : Option String) :
    reduceTransfer st ⟨"burn", EvState.success, h⟩ =
      { st with
        status := TxStatus.BURNED
        sourceTxHash := if truthyHash h then h else st.sourceTxHash } := by
  cases st
  simp [reduceTransfer, ite_self]

theorem redT_burn_error (st : StoreState) (h : Option String) :
    reduceTransfer st ⟨"burn", EvState.error, h⟩ = st := by
  cases st
  simp [reduceTransfer, ite_self]

theorem redT_fa_pending (st : StoreState) (h : Option String) :
    reduceTransfer st ⟨"fetchAttestation", EvState.pending, h⟩ =
      { st with status := TxStatus.ATTESTING } := by
  cases st
  simp [reduceTransfer, ite_self]

theorem redT_fa_success (st : StoreState) (h : Option String) :
    reduceTransfer st ⟨"fetchAttestation", EvState.success, h⟩ =
      { st with status := TxStatus.ATTESTED } := by
  cases st
  simp [reduceTransfer, ite_self]

theorem redT_mint_pending (st : StoreState) (h : Option String) :
    reduceTransfer st ⟨"mint", EvState.pending, h⟩ = { st with status := TxStatus.MINTING } := by
  cases st
  simp [reduceTransfer, ite_self]

theorem redT_mint_success (st : StoreState) (h : Option String) :
    reduceTransfer st ⟨"mint", EvState.success, h⟩ =
      { st with
        status := TxStatus.COMPLETED
        destTxHash := if truthyHash h then h else st.destTxHash } := by
  cases st
  simp [reduceTransfer, ite_self]

theorem redT_mint_error (st : StoreState) (h : Option String) :
    reduceTransfer st ⟨"mint", EvState.error, h⟩ = st := by
  cases st
  simp [reduceTransfer, ite_self]

theorem redR_fa_pending (st : StoreState) (h : Option String) :
    reduceRecover st ⟨"fetchAttestation", EvState.pending, h⟩ =
      { st with status := TxStatus.ATTESTING } := by
  cases st
  simp [reduceRecover, ite_self]

theorem redR_fa_success (st : StoreState) (h : Option String) :
    reduceRecover st ⟨"fetchAttestation", EvState.success, h⟩ =
      { st with status := TxStatus.ATTESTED } := by
  cases st
  simp [reduceRecover, ite_self]

theorem redR_mint_pending (st : StoreState) (h : Option String) :
    reduceRecover st ⟨"mint", EvState.pending, h⟩ = { st with status := TxStatus.MINTING } := by
  cases st
  simp [reduceRecover, ite_self]

theorem redR_mint_success (st : StoreState) (h : Option String) :
    reduceRecover st ⟨"mint", EvState.success, h⟩ =
      { st with
        status := TxStatus.COMPLETED
        destTxHash := if truthyHash h then h else st.destTxHash } := by
  cases st
  simp [reduceRecover, ite_self]

theorem redR_mint_error (st : StoreState) (h : Option String) :
    reduceRecover st ⟨"mint", EvState.error, h⟩ = st := by
  cases st
  simp [reduceRecover, ite_self]

theorem traceOK_append (ok : TxStatus → TxStatus → Bool)
    (red : StoreState → ProgressEvent → StoreState) (st : StoreState)
    (l1 l2 : List ProgressEvent) :
    traceOK ok red st (l1 ++ l2) =
      (traceOK ok red st l1 && traceOK ok red (List.foldl red st l1) l2) := by
  induction l1 generalizing st with
  | nil => simp [traceOK]
  | cons e es ih => simp [traceOK, ih, Bool.and_assoc]

/-! ### Shapes of the per-phase event lists -/

theorem executeApprove_shape (name : String) (b : ApproveBehavior) :
    (executeApprove name b).2 = [⟨"approve", EvState.noop, none⟩] ∨
      (executeApprove name b).2 = [⟨"approve", EvState.pending, none⟩] ∨
      (executeApprove name b).2 =
        [⟨"approve", EvState.pending, none⟩, ⟨"approve", EvState.noop, none⟩] ∨
      (executeApprove name b).2 =
        [⟨"approve", EvState.pending, none⟩, ⟨"approve", EvState.success, none⟩] := by
  unfold executeApprove
  by_cases hs : strHasSub (lowerStr name) "solana" = true
  · simp [hs]
  · simp only [hs, Bool.false_eq_true, if_false]
    cases b <;> simp

theorem executeBurn_shape (beh : Nat → AttemptOutcome) :
    (∃ h n, executeBurn beh =
      (Except.ok h, n, [⟨"burn", EvState.pending, none⟩, ⟨"burn", EvState.success, some h⟩])) ∨
      (∃ m n, executeBurn beh =
        (Except.error m, n, [⟨"burn", EvState.pending, none⟩, ⟨"burn", EvState.error, none⟩])) := by
  unfold executeBurn
  rcases hr : executeWithRetry beh 3 1 none with ⟨r, n, last⟩
  dsimp only
  cases r with
  | ok h => exact Or.inl ⟨h, n, rfl⟩
  | error e =>
    dsimp only
    by_cases hc : (truthyHash last && isSolanaTxExpiredError e.message) = true
    · cases last with
      | none => simp [truthyHash] at hc
      | some h =>
        left
        refine ⟨h, n, ?_⟩
        rw [if_pos hc]
        rfl
    · right
      refine ⟨formatSolanaBurnError e, n, ?_⟩
      rw [if_neg hc]

theorem fetchAttestation_shape (res : Except String Attestation) :
    (fetchAttestation res).2 = [⟨"fetchAttestation", EvState.pending, none⟩] ∨
      (fetchAttestation res).2 =
        [⟨"fetchAttestation", EvState.pending, none⟩,
          ⟨"fetchAttestation", EvState.success, none⟩] := by
  cases res <;> simp [fetchAttestation]

theorem executeMint_shape (isSolana : Bool) (att : AttemptOutcome) :
    (∃ h, (executeMint isSolana att).2 =
      [⟨"mint", EvState.pending, none⟩, ⟨"mint", EvState.success, h⟩]) ∨
      (executeMint isSolana att).2 =
        [⟨"mint", EvState.pending, none⟩, ⟨"mint", EvState.error, none⟩] := by
  unfold executeMint
  cases att with
  | ok h => exact Or.inl ⟨_, rfl⟩
  | err e obs =>
    by_cases h1 : truthyHash obs = true
    · simp only [h1, if_true]
      exact Or.inl ⟨_, rfl⟩
    · simp only [h1, Bool.false_eq_true, if_false]
      by_cases h2 : alreadyRedeemedClass e.message = true
      · simp only [h2, if_true]
        exact Or.inl ⟨_, rfl⟩
      · simp only [h2, Bool.false_eq_true, if_false]
        by_cases h3 : timeoutClass e.message = true
        · simp only [h3, if_true]
          exact Or.inl ⟨_, rfl⟩
        · simp only [h3, Bool.false_eq_true, if_false]
          by_cases h4 : (isSolana && isSolanaTxExpiredError e.message) = true
          · simp only [h4, if_true]
            exact Or.inl ⟨_, rfl⟩
          · simp [h4]

theorem traceOK_approve_list (l : List ProgressEvent)
    (hl : ∀ e ∈ l, e.step = "approve") (st : StoreState) :
    List.foldl reduceTransfer st l = st ∧
      traceOK stepForwardOK reduceTransfer st l = true := by
  induction l generalizing st with
  | nil => exact ⟨rfl, rfl⟩
  | cons e es ih =>
    rcases e with ⟨stp, stt, h⟩
    have hstep : stp = "approve" := hl _ (List.mem_cons_self _ _)
    subst hstep
    have hred := redT_approve st stt h
    have ih2 := ih (fun e he => hl e (List.mem_cons_of_mem _ he)) st
    refine ⟨?_, ?_⟩
    · simp only [List.foldl_cons, hred, ih2.1]
    · simp only [traceOK, hred, ih2.2, Bool.and_true]
      simp [stepForwardOK]

theorem traceT_burn_err (st : StoreState) (hst : st.status = TxStatus.PENDING) :
    traceOK stepForwardOK reduceTransfer st
      [⟨"burn", EvState.pending, none⟩, ⟨"burn", EvState.error, none⟩] = true := by
  simp [traceOK, redT_burn_pending, redT_burn_error, stepForwardOK, statusRank, hst]

theorem traceT_burn_fa_pending (st : StoreState) (h : Option String)
    (hst : st.status = TxStatus.PENDING) :
    traceOK stepForwardOK reduceTransfer st
      ([⟨"burn", EvState.pending, none⟩, ⟨"burn", EvState.success, h⟩] ++
        [⟨"fetchAttestation", EvState.pending, none⟩]) = true := by
  simp [traceOK, redT_burn_pending, redT_burn_success, redT_fa_pending,
    stepForwardOK, statusRank, hst]

theorem traceT_burn_fa_ok (st : StoreState) (h : Option String)
    (hst : st.status = TxStatus.PENDING) :
    traceOK stepForwardOK reduceTransfer st
      ([⟨"burn", EvState.pending, none⟩, ⟨"burn", EvState.success, h⟩] ++
        [⟨"fetchAttestation", EvState.pending, none⟩,
          ⟨"fetchAttestation", EvState.success, none⟩]) = true := by
  simp [traceOK, redT_burn_pending, redT_burn_success, redT_fa_pending, redT_fa_success,
    stepForwardOK, statusRank, hst]

theorem traceT_full_mint_ok (st : StoreState) (h h2 : Option String)
    (hst : st.status = TxStatus.PENDING) :
    traceOK stepForwardOK reduceTransfer st
      ([⟨"burn", EvState.pending, none⟩, ⟨"burn", EvState.success, h⟩] ++
        ([⟨"fetchAttestation", EvState.pending, none⟩,
          ⟨"fetchAttestation", EvState.success, none⟩] ++
        [⟨"mint", EvState.pending, none⟩, ⟨"mint", EvState.success, h2⟩])) = true := by
  simp [traceOK, redT_burn_pending, redT_burn_success, redT_fa_pending, redT_fa_success,
    redT_mint_pending, redT_mint_success, stepForwardOK, statusRank, hst]

theorem traceT_full_mint_err (st : StoreState) (h : Option String)
    (hst : st.status = TxStatus.PENDING) :
    traceOK stepForwardOK reduceTransfer st
      ([⟨"burn", EvState.pending, none⟩, ⟨"burn", EvState.success, h⟩] ++
        ([⟨"fetchAttestation", EvState.pending, none⟩,
          ⟨"fetchAttestation", EvState.success, none⟩] ++
        [⟨"mint", EvState.pending, none⟩, ⟨"mint", EvState.error, none⟩])) = true := by
  simp [traceOK, redT_burn_pending, redT_burn_success, redT_fa_pending, redT_fa_success,
    redT_mint_pending, redT_mint_error, stepForwardOK, statusRank, hst]

theorem traceR_fa_pending (st : StoreState) (hst : st.status = TxStatus.BURNING) :
    traceOK stepForwardOK reduceRecover st
      [⟨"fetchAttestation", EvState.pending, none⟩] = true := by
  simp [traceOK, redR_fa_pending, stepForwardOK, statusRank, hst]

theorem traceR_fa_ok (st : StoreState) (hst : st.status = TxStatus.BURNING) :
    traceOK stepForwardOK reduceRecover st
      [⟨"fetchAttestation", EvState.pending, none⟩,
        ⟨"fetchAttestation", EvState.success, none⟩] = true := by
  simp [traceOK, redR_fa_pending, redR_fa_success, stepForwardOK, statusRank, hst]

theorem traceR_full_mint_ok (st : StoreState) (h2 : Option String)
    (hst : st.status = TxStatus.BURNING) :
    traceOK stepForwardOK reduceRecover st
      ([⟨"fetchAttestation", EvState.pending, none⟩,
          ⟨"fetchAttestation", EvState.success, none⟩] ++
        [⟨"mint", EvState.pending, none⟩, ⟨"mint", EvState.success, h2⟩]) = true := by
  simp [traceOK, redR_fa_pending, redR_fa_success, redR_mint_pending, redR_mint_success,
    stepForwardOK, statusRank, hst]

theorem traceR_full_mint_err (st : StoreState) (hst : st.status = TxStatus.BURNING) :
    traceOK stepForwardOK reduceRecover st
      ([⟨"fetchAttestation", EvState.pending, none⟩,
          ⟨"fetchAttestation", EvState.success, none⟩] ++
        [⟨"mint", EvState.pending, none⟩, ⟨"mint", EvState.error, none⟩]) = true := by
  simp [traceOK, redR_fa_pending, redR_fa_success, redR_mint_pending, redR_mint_error,
    stepForwardOK, statusRank, hst]

theorem bridgeUSDC_trace_ok (p : BridgeParams) (env : TransferEnv) (st : StoreState)
    (hst : st.status = TxStatus.PENDING) :
    traceOK stepForwardOK reduceTransfer st (bridgeUSDC p env).2 = true := by
  unfold bridgeUSDC
  by_cases h0 : p.recipientAddress = ""
  · simp [h0, traceOK]
  · rw [if_neg h0]
    cases h1 : parseUSDC p.amount with
    | error m => simp [traceOK]
    | ok amt =>
    cases h2 : createAdapter p.sourceChainId (isSolanaChain p.sourceChainId)
        env.evmWallet env.solanaWallet with
    | error m => simp [traceOK]
    | ok u1 =>
    cases h3 : createAdapter p.destChainId (isSolanaChain p.destChainId)
        env.evmWallet env.solanaWallet with
    | error m => simp [traceOK]
    | ok u2 =>
    cases h4 : getChainDefinition p.sourceChainId with
    | error m => simp [traceOK]
    | ok scd =>
    cases h5 : env.sourceAddress with
    | error m => simp [traceOK]
    | ok sa =>
    cases h6 : getChainDefinition p.destChainId with
    | error m => simp [traceOK]
    | ok dcd =>
    cases h7 : env.destAddress with
    | error m => simp [traceOK]
    | ok da =>
    dsimp only
    rcases hA : executeApprove scd.name env.approve with ⟨ra, evA⟩
    have hAev : (executeApprove scd.name env.approve).2 = evA := by rw [hA]
    have hAsh := executeApprove_shape scd.name env.approve
    rw [hAev] at hAsh
    have hAstep : ∀ e ∈ evA, e.step = "approve" := by
      rcases hAsh with rfl | rfl | rfl | rfl <;> intro e he <;>
        simp only [List.mem_cons, List.mem_singleton, List.not_mem_nil, or_false] at he <;>
        rcases he with rfl | rfl <;> rfl
    have hAtrace := traceOK_approve_list evA hAstep st
    cases ra with
    | error m => exact hAtrace.2
    | ok u3 =>
    dsimp only
    rcases hB : executeBurn env.burn with ⟨rb, nb, evB⟩
    have hBsh := executeBurn_shape env.burn
    cases rb with
    | error m =>
      dsimp only
      have hBcase : evB = [⟨"burn", EvState.pending, none⟩, ⟨"burn", EvState.error, none⟩] := by
        rcases hBsh with ⟨h', n', heq⟩ | ⟨m', n', heq⟩
        · rw [heq] at hB
          cases hB
        · rw [heq] at hB
          cases hB
          rfl
      subst hBcase
      rw [traceOK_append, hAtrace.1, hAtrace.2, Bool.true_and]
      exact traceT_burn_err st hst
    | ok bh =>
      dsimp only
      have hBcase : evB =
          [⟨"burn", EvState.pending, none⟩, ⟨"burn", EvState.success, some bh⟩] := by
        rcases hBsh with ⟨h', n', heq⟩ | ⟨m', n', heq⟩
        · rw [heq] at hB
          cases hB
          rfl
        · rw [heq] at hB
          cases hB
      subst hBcase
      cases hF : env.attestation with
      | error m =>
        simp only [fetchAttestation]
        rw [List.append_assoc, traceOK_append, hAtrace.1, hAtrace.2, Bool.true_and]
        exact traceT_burn_fa_pending st (some bh) hst
      | ok att =>
        simp only [fetchAttestation]
        rcases hM : executeMint (isSolanaChain p.destChainId) env.mint with ⟨rm, evM⟩
        have hMev : (executeMint (isSolanaChain p.destChainId) env.mint).2 = evM := by rw [hM]
        have hMsh := executeMint_shape (isSolanaChain p.destChainId) env.mint
        rw [hMev] at hMsh
        have hfin : traceOK stepForwardOK reduceTransfer st
            (evA ++ ([⟨"burn", EvState.pending, none⟩, ⟨"burn", EvState.success, some bh⟩] ++
              ([⟨"fetchAttestation", EvState.pending, none⟩,
                ⟨"fetchAttestation", EvState.success, none⟩] ++ evM))) = true := by
          rw [traceOK_append, hAtrace.1, hAtrace.2, Bool.true_and]
          rcases hMsh with ⟨h2, rfl⟩ | rfl
          · exact traceT_full_mint_ok st (some bh) h2 hst
          · exact traceT_full_mint_err st (some bh) hst
        cases rm with
        | error m =>
          dsimp only
          rw [List.append_assoc, List.append_assoc]
          exact hfin
        | ok mh =>
          dsimp only
          rw [List.append_assoc, List.append_assoc]
          exact hfin

theorem recoverTransfer_trace_ok (p : RecoverParams) (env : TransferEnv) (st : StoreState)
    (hst : st.status = TxStatus.BURNING) :
    traceOK stepForwardOK reduceRecover st (recoverTransfer p env).2 = true := by
  unfold recoverTransfer
  cases h1 : getChainDefinition p.sourceChainId with
  | error m => simp [traceOK]
  | ok scd =>
  cases h2 : (if isSolanaChain p.sourceChainId then
      Except.ok (String.mk (trimChars p.sourceTxHash.data))
    else normalizeEvmTxHash p.sourceTxHash) with
  | error m => simp [traceOK]
  | ok ntx =>
  cases h3 : parseUSDC p.amount with
  | error m => simp [traceOK]
  | ok amt =>
  cases h4 : createAdapter p.sourceChainId (isSolanaChain p.sourceChainId)
      env.evmWallet env.solanaWallet with
  | error m => simp [traceOK]
  | ok u1 =>
  cases h5 : createAdapter p.destChainId (isSolanaChain p.destChainId)
      env.evmWallet env.solanaWallet with
  | error m => simp [traceOK]
  | ok u2 =>
  cases h6 : env.sourceAddress with
  | error m => simp [traceOK]
  | ok sa =>
  cases h7 : getChainDefinition p.destChainId with
  | error m => simp [traceOK]
  | ok dcd =>
  dsimp only
  cases hF : env.attestation with
  | error m =>
    simp only [fetchAttestation]
    exact traceR_fa_pending st hst
  | ok att =>
  simp only [fetchAttestation]
  cases hX : extractRecipientFromAttestation att with
  | error m =>
    dsimp only
    exact traceR_fa_ok st hst
  | ok recip =>
  dsimp only
  cases h8 : env.destAddress with
  | error m => exact traceR_fa_ok st hst
  | ok da =>
  dsimp only
  rcases hM : executeMint (isSolanaChain p.destChainId) env.mint with ⟨rm, evM⟩
  have hMev : (executeMint (isSolanaChain p.destChainId) env.mint).2 = evM := by rw [hM]
  have hMsh := executeMint_shape (isSolanaChain p.destChainId) env.mint
  rw [hMev] at hMsh
  have hfin : traceOK stepForwardOK reduceRecover st
      ([⟨"fetchAttestation", EvState.pending, none⟩,
        ⟨"fetchAttestation", EvState.success, none⟩] ++ evM) = true := by
    rcases hMsh with ⟨h2, rfl⟩ | rfl
    · exact traceR_full_mint_ok st h2 hst
    · exact traceR_full_mint_err st hst
  cases rm with
  | error m => exact hfin
  | ok mh => exact hfin

/-! ### Character facts for the hash normalizer -/

theorem charOfNat_toNat (n : Nat) (h : n < 55296) : (Char.ofNat n).toNat = n := by
  have hv : n.isValidChar := Or.inl h
  simp [Char.ofNat, Char.toNat, hv, Char.ofNatAux, UInt32.toNat]

/-- A lowercase hexadecimal digit. -/
def isLowerHexDigit (c : Char) : Bool := isDig c || (97 ≤ c.toNat && c.toNat ≤ 102)

theorem lowerChar_hex (c : Char) (h : isHexDigit c = true) :
    isLowerHexDigit (lowerChar c) = true := by
  simp only [isHexDigit, isDig, Bool.or_eq_true, Bool.and_eq_true, decide_eq_true_eq] at h
  simp only [isLowerHexDigit, isDig, lowerChar, Bool.or_eq_true, Bool.and_eq_true,
    decide_eq_true_eq]
  rcases h with (h | h) | h
  · rw [if_neg (by omega)]
    omega
  · rw [if_neg (by omega)]
    omega
  · rw [if_pos (by omega)]
    rw [charOfNat_toNat _ (by omega)]
    omega

/-- The hash recorded for a named step of a `BridgeResult`. -/
def stepHashOfResult (r : BridgeResult) (nm : String) : Option String :=
  (r.steps.find? fun s0 => s0.name = nm).bind fun s0 => s0.txHash

theorem recoverTransfer_ok_inv (p : RecoverParams) (env : TransferEnv)
    (res : BridgeResult) (evs : List ProgressEvent)
    (h : recoverTransfer p env = (Except.ok res, evs)) :
    ∃ att recip ntx mh amt sa scd dcd,
      env.attestation = Except.ok att ∧
      extractRecipientFromAttestation att = Except.ok recip ∧
      (if isSolanaChain p.sourceChainId then
          Except.ok (String.mk (trimChars p.sourceTxHash.data))
        else normalizeEvmTxHash p.sourceTxHash) = Except.ok ntx ∧
      (executeMint (isSolanaChain p.destChainId) env.mint).1 = Except.ok mh ∧
      res = createSuccessResult amt sa scd recip dcd ntx mh att := by
  unfold recoverTransfer at h
  cases h1 : getChainDefinition p.sourceChainId with
  | error m => rw [h1] at h; simp at h
  | ok scd =>
  rw [h1] at h
  dsimp only at h
  cases h2 : (if isSolanaChain p.sourceChainId then
      Except.ok (String.mk (trimChars p.sourceTxHash.data))
    else normalizeEvmTxHash p.sourceTxHash) with
  | error m => rw [h2] at h; simp at h
  | ok ntx =>
  rw [h2] at h
  dsimp only at h
  cases h3 : parseUSDC p.amount with
  | error m => rw [h3] at h; simp at h
  | ok amt =>
  rw [h3] at h
  dsimp only at h
  cases h4 : createAdapter p.sourceChainId (isSolanaChain p.sourceChainId)
      env.evmWallet env.solanaWallet with
  | error m => rw [h4] at h; simp at h
  | ok u1 =>
  rw [h4] at h
  dsimp only at h
  cases h5 : createAdapter p.destChainId (isSolanaChain p.destChainId)
      env.evmWallet env.solanaWallet with
  | error m => rw [h5] at h; simp at h
  | ok u2 =>
  rw [h5] at h
  dsimp only at h
  cases h6 : env.sourceAddress with
  | error m => rw [h6] at h; simp at h
  | ok sa =>
  rw [h6] at h
  dsimp only at h
  cases h7 : getChainDefinition p.destChainId with
  | error m => rw [h7] at h; simp at h
  | ok dcd =>
  rw [h7] at h
  dsimp only at h
  cases hF : env.attestation with
  | error m => rw [hF] at h; simp [fetchAttestation] at h
  | ok att =>
  rw [hF] at h
  simp only [fetchAttestation] at h
  cases hX : extractRecipientFromAttestation att with
  | error m => rw [hX] at h; simp at h
  | ok recip =>
  rw [hX] at h
  dsimp only at h
  cases h8 : env.destAddress with
  | error m => rw [h8] at h; simp at h
  | ok da =>
  rw [h8] at h
  dsimp only at h
  rcases hM : executeMint (isSolanaChain p.destChainId) env.mint with ⟨rm, evM⟩
  rw [hM] at h
  cases rm with
  | error m => simp at h
  | ok mh =>
    dsimp only at h
    have hres : res = createSuccessResult amt sa scd recip dcd ntx mh att := by
      have := congrArg Prod.fst h
      simpa using this.symm
    exact ⟨att, recip, ntx, mh, amt, sa, scd, dcd, rfl, hX, rfl, rfl, hres⟩

theorem bridgeUSDC_ok_inv (p : BridgeParams) (env : TransferEnv)
    (res : BridgeResult) (evs : List ProgressEvent)
    (h : bridgeUSDC p env = (Except.ok res, evs)) :
    ∃ amt sa scd dcd bh mh att,
      (executeBurn env.burn).1 = Except.ok bh ∧
      env.attestation = Except.ok att ∧
      (executeMint (isSolanaChain p.destChainId) env.mint).1 = Except.ok mh ∧
      res = createSuccessResult amt sa scd p.recipientAddress dcd bh mh att := by
  unfold bridgeUSDC at h
  by_cases h0 : p.recipientAddress = ""
  · rw [if_pos h0] at h
    simp at h
  rw [if_neg h0] at h
  cases h1 : parseUSDC p.amount with
  | error m => rw [h1] at h; simp at h
  | ok amt =>
  rw [h1] at h
  dsimp only at h
  cases h2 : createAdapter p.sourceChainId (isSolanaChain p.sourceChainId)
      env.evmWallet env.solanaWallet with
  | error m => rw [h2] at h; simp at h
  | ok u1 =>
  rw [h2] at h
  dsimp only at h
  cases h3 : createAdapter p.destChainId (isSolanaChain p.destChainId)
      env.evmWallet env.solanaWallet with
  | error m => rw [h3] at h; simp at h
  | ok u2 =>
  rw [h3] at h
  dsimp only at h
  cases h4 : getChainDefinition p.sourceChainId with
  | error m => rw [h4] at h; simp at h
  | ok scd =>
  rw [h4] at h
  dsimp only at h
  cases h5 : env.sourceAddress with
  | error m => rw [h5] at h; simp at h
  | ok sa =>
  rw [h5] at h
  dsimp only at h
  cases h6 : getChainDefinition p.destChainId with
  | error m => rw [h6] at h; simp at h
  | ok dcd =>
  rw [h6] at h
  dsimp only at h
  cases h7 : env.destAddress with
  | error m => rw [h7] at h; simp at h
  | ok da =>
  rw [h7] at h
  dsimp only at h
  rcases hA : executeApprove scd.name env.approve with ⟨ra, evA⟩
  rw [hA] at h
  cases ra with
  | error m => simp at h
  | ok u3 =>
  dsimp only at h
  rcases hB : executeBurn env.burn with ⟨rb, nb, evB⟩
  rw [hB] at h
  cases rb with
  | error m => simp at h
  | ok bh =>
  dsimp only at h
  cases hF : env.attestation with
  | error m => rw [hF] at h; simp [fetchAttestation] at h
  | ok att =>
  rw [hF] at h
  simp only [fetchAttestation] at h
  rcases hM : executeMint (isSolanaChain p.destChainId) env.mint with ⟨rm, evM⟩
  rw [hM] at h
  cases rm with
  | error m => simp at h
  | ok mh =>
    dsimp only at h
    have hres : res = createSuccessResult amt sa scd p.recipientAddress dcd bh mh att := by
      have := congrArg Prod.fst h
      simpa using this.symm
    exact ⟨amt, sa, scd, dcd, bh, mh, att, rfl, rfl, rfl, hres⟩

/-! ### Concrete environments for entry-point runs -/

/-- A fully healthy environment: wallets present, addresses resolve, the
attestation decodes to a recipient, burn and mint succeed. -/
def envBenign : TransferEnv :=
  { evmWallet := true
    solanaWallet := true
    sourceAddress := Except.ok "0xsourceaddr"
    destAddress := Except.ok "0xdestsigner"
    approve := ApproveBehavior.notNeeded
    burn := fun _ => AttemptOutcome.ok "0xburnhash"
    attestation := Except.ok ⟨some ⟨some ⟨some "0xoriginalrecipient"⟩⟩⟩
    mint := AttemptOutcome.ok "0xminthash" }

/-- `envBenign` but the mint attempt throws an already-redeemed error. -/
def envMintRedeemed : TransferEnv :=
  { envBenign with mint := AttemptOutcome.err ⟨"already redeemed", []⟩ none }

def pEthBase : BridgeParams :=
  ⟨"ethereum-mainnet", "base-mainnet", "1", "0xme"⟩

def pRecEthBase : RecoverParams :=
  ⟨"0xaaaaaaaaaaaaaaaaaaaaaaaaaaaaaaaaaaaaaaaaaaaaaaaaaaaaaaaaaaaaaaaa",
    "ethereum-mainnet", "base-mainnet", "1"⟩

/-! ### Claim C1 — mint outcome priority -/

/-- Claim C1 (amended): the mint outcome is resolved in priority order —
(1) an observed (truthy) hash wins; (2) otherwise an already-redeemed-class
error resolves as success with the sentinel `mint-already-completed` and
never throws; (3) otherwise a timeout resolves as success with
`mint-check-wallet`; (4) otherwise an ambiguous-expiry error resolves as
success with `mint-signature-expired` **when the destination chain is
Solana-like**; (5) otherwise the mint fails with the category-specific
formatted message.  Both `transfer()` and `recover()` surface this outcome:
with an already-redeemed mint error both complete with the sentinel as the
mint step's hash. -/
theorem C1_mint_priority_amended :
    (∀ (isSolana : Bool) (e : JsError) (obs : Option String),
        truthyHash obs = true →
        (executeMint isSolana (AttemptOutcome.err e obs)).1 = Except.ok (obs.getD "")) ∧
      (∀ (isSolana : Bool) (e : JsError) (obs : Option String),
        truthyHash obs = false → alreadyRedeemedClass e.message = true →
        (executeMint isSolana (AttemptOutcome.err e obs)).1 =
          Except.ok "mint-already-completed") ∧
      (∀ (isSolana : Bool) (e : JsError) (obs : Option String),
        truthyHash obs = false → alreadyRedeemedClass e.message = false →
        timeoutClass e.message = true →
        (executeMint isSolana (AttemptOutcome.err e obs)).1 = Except.ok "mint-check-wallet") ∧
      (∀ (e : JsError) (obs : Option String),
        truthyHash obs = false → alreadyRedeemedClass e.message = false →
        timeoutClass e.message = false → isSolanaTxExpiredError e.message = true →
        (executeMint true (AttemptOutcome.err e obs)).1 = Except.ok "mint-signature-expired") ∧
      (∀ (isSolana : Bool) (e : JsError) (obs : Option String),
        truthyHash obs = false → alreadyRedeemedClass e.message = false →
        timeoutClass e.message = false →
        (isSolana && isSolanaTxExpiredError e.message) = false →
        (executeMint isSolana (AttemptOutcome.err e obs)).1 =
          Except.error
            (if isSolana then formatSolanaMintError e else formatEvmMintError e.message)) ∧
      ((bridgeUSDC pEthBase envMintRedeemed).1.toOption.bind
          (fun r => stepHashOfResult r "mint") = some "mint-already-completed" ∧
        (recoverTransfer pRecEthBase envMintRedeemed).1.toOption.bind
          (fun r => stepHashOfResult r "mint") = some "mint-already-completed") := by
  refine ⟨?_, ?_, ?_, ?_, ?_, by decide, by decide⟩
  · intro isSolana e obs h1
    simp [executeMint, h1]
  · intro isSolana e obs h1 h2
    simp [executeMint, h1, h2]
  · intro isSolana e obs h1 h2 h3
    simp [executeMint, h1, h2, h3]
  · intro e obs h1 h2 h3 h4
    simp [executeMint, h1, h2, h3, h4]
  · intro isSolana e obs h1 h2 h3 h4
    simp [executeMint, h1, h2, h3, h4]

/-- Claim C1, as stated, fails on non-Solana destinations: an
ambiguous-expiry mint error on an EVM-like destination is re-thrown (clause
4 does not apply there), not resolved as `mint-signature-expired`. -/
theorem C1_counterexample :
    isSolanaTxExpiredError "Signature has expired" = true ∧
      alreadyRedeemedClass "Signature has expired" = false ∧
      timeoutClass "Signature has expired" = false ∧
      (executeMint false (AttemptOutcome.err ⟨"Signature has expired", []⟩ none)).1 =
        Except.error "Signature has expired" :=
  ⟨by decide, by decide, by decide, rfl⟩

/-- Witness for `C1_mint_priority_amended` at one concrete input per clause. -/
theorem C1_witness :
    (executeMint true (AttemptOutcome.err ⟨"whatever", []⟩ (some "0xobserved"))).1 =
        Except.ok "0xobserved" ∧
      (executeMint false (AttemptOutcome.err ⟨"already redeemed", []⟩ none)).1 =
        Except.ok "mint-already-completed" ∧
      (executeMint false
          (AttemptOutcome.err ⟨"Mint execution timeout after 20 seconds", []⟩ none)).1 =
        Except.ok "mint-check-wallet" ∧
      (executeMint true (AttemptOutcome.err ⟨"Blockhash not found", []⟩ none)).1 =
        Except.ok "mint-signature-expired" ∧
      (executeMint false (AttemptOutcome.err ⟨"boom", []⟩ none)).1 =
        Except.error "boom" := by
  refine ⟨C1_mint_priority_amended.1 true ⟨"whatever", []⟩ (some "0xobserved") (by decide),
    C1_mint_priority_amended.2.1 false ⟨"already redeemed", []⟩ none (by decide) (by decide),
    C1_mint_priority_amended.2.2.1 false ⟨"Mint execution timeout after 20 seconds", []⟩ none
      (by decide) (by decide) (by decide),
    C1_mint_priority_amended.2.2.2.1 ⟨"Blockhash not found", []⟩ none
      (by decide) (by decide) (by decide) (by decide), ?_⟩
  have h := C1_mint_priority_amended.2.2.2.2.1 false ⟨"boom", []⟩ none
    (by decide) (by decide) (by decide) (by decide)
  simpa using h

/-! ### Claim C2 — burn retry discipline -/

theorem executeWithRetry_attempt_le (beh : Nat → AttemptOutcome) :
    ∀ (fuel attempt : Nat) (last : Option String),
      (executeWithRetry beh fuel attempt last).2.1 ≤ attempt + fuel - 1 := by
  intro fuel
  induction fuel with
  | zero => intro attempt last; simp [executeWithRetry]
  | succ fuel ih =>
    intro attempt last
    rw [executeWithRetry]
    cases hbeh : beh attempt with
    | ok h =>
      dsimp only
      omega
    | err e obs =>
      dsimp only
      by_cases hc : (isSolanaTxExpiredError e.message && fuel ≠ 0) = true
      · rw [if_pos hc]
        exact le_trans (ih (attempt + 1) _) (by omega)
      · rw [if_neg hc]
        dsimp only
        omega

theorem executeWithRetry_retry_expiry (beh : Nat → AttemptOutcome) :
    ∀ (fuel attempt : Nat) (last : Option String) (k : Nat),
      attempt ≤ k → k < (executeWithRetry beh fuel attempt last).2.1 →
      ∃ e obs, beh k = AttemptOutcome.err e obs ∧ isSolanaTxExpiredError e.message = true := by
  intro fuel
  induction fuel with
  | zero =>
    intro attempt last k hk1 hk2
    simp [executeWithRetry] at hk2
    omega
  | succ fuel ih =>
    intro attempt last k hk1 hk2
    rw [executeWithRetry] at hk2
    cases hbeh : beh attempt with
    | ok h =>
      rw [hbeh] at hk2
      dsimp only at hk2
      omega
    | err e obs =>
      rw [hbeh] at hk2
      dsimp only at hk2
      by_cases hc : (isSolanaTxExpiredError e.message && fuel ≠ 0) = true
      · rw [if_pos hc] at hk2
        by_cases hke : k = attempt
        · subst hke
          simp only [Bool.and_eq_true] at hc
          exact ⟨e, obs, hbeh, hc.1⟩
        · exact ih (attempt + 1) _ k (by omega) hk2
      · rw [if_neg hc] at hk2
        dsimp only at hk2
        omega

theorem executeBurn_attempts (beh : Nat → AttemptOutcome) :
    (executeBurn beh).2.1 = (executeWithRetry beh 3 1 none).2.1 := by
  unfold executeBurn
  rcases hr : executeWithRetry beh 3 1 none with ⟨r, n, last⟩
  dsimp only
  cases r with
  | ok h => rfl
  | error e =>
    dsimp only
    by_cases hc : (truthyHash last && isSolanaTxExpiredError e.message) = true
    · rw [if_pos hc]
    · rw [if_neg hc]

/-- Claim C2 (amended): the burn submission is attempted at most 3 times, a
retry happens only when the failed attempt's error is of the
ambiguous-expiry class, and an observed hash does **not** pre-empt the retry
loop: only when the loop's final outcome is an ambiguous-expiry error does a
(truthy) observed hash resolve the burn as success with the most recently
observed hash.  The spec's concrete scenario holds: expiry on attempt 1 and
a hash on attempt 2 complete the transfer with `sourceTxHash` equal to the
attempt-2 hash after exactly 2 attempts. -/
theorem C2_burn_retry_amended :
    (∀ beh : Nat → AttemptOutcome, (executeBurn beh).2.1 ≤ 3) ∧
      (∀ (beh : Nat → AttemptOutcome) (k : Nat),
        1 ≤ k → k < (executeBurn beh).2.1 →
        ∃ e obs, beh k = AttemptOutcome.err e obs ∧
          isSolanaTxExpiredError e.message = true) ∧
      (∀ (beh : Nat → AttemptOutcome) (e : JsError) (n : Nat) (last : Option String),
        executeWithRetry beh 3 1 none = (Except.error e, n, last) →
        truthyHash last = true → isSolanaTxExpiredError e.message = true →
        (executeBurn beh).1 = Except.ok (last.getD "")) ∧
      (executeBurn (fun k => if k = 1 then
            AttemptOutcome.err ⟨"Solana error: block height exceeded", []⟩ none
          else AttemptOutcome.ok "0xattempt2") =
          (Except.ok "0xattempt2", 2,
            [⟨"burn", EvState.pending, none⟩, ⟨"burn", EvState.success, some "0xattempt2"⟩]) ∧
        List.foldl reduceTransfer ⟨TxStatus.PENDING, none, none⟩
            (bridgeUSDC pEthBase
              { envBenign with burn := fun k => if k = 1 then
                  AttemptOutcome.err ⟨"Solana error: block height exceeded", []⟩ none
                else AttemptOutcome.ok "0xattempt2" }).2 =
          ⟨TxStatus.COMPLETED, some "0xattempt2", some "0xminthash"⟩ ∧
        (bridgeUSDC pEthBase
            { envBenign with burn := fun k => if k = 1 then
                AttemptOutcome.err ⟨"Solana error: block height exceeded", []⟩ none
              else AttemptOutcome.ok "0xattempt2" }).1.toOption.bind
            (fun r => stepHashOfResult r "burn") = some "0xattempt2") := by
  refine ⟨?_, ?_, ?_, by rfl, by decide, by decide⟩
  · intro beh
    rw [executeBurn_attempts]
    have hb := executeWithRetry_attempt_le beh 3 1 none
    omega
  · intro beh k hk1 hk2
    rw [executeBurn_attempts] at hk2
    exact executeWithRetry_retry_expiry beh 3 1 none k hk1 hk2
  · intro beh e n last hr htr hex
    unfold executeBurn
    rw [hr]
    dsimp only
    rw [if_pos (by simp [htr, hex])]

/-- Claim C2, as stated, fails: a hash observed before an ambiguous-expiry
error does not make the burn succeed with that hash — the loop retries, and
when a later attempt fails with a non-expiry error the burn fails outright.
Attempt 1 observes `0xh1` and throws an expiry error; attempt 2 throws
`boom`; the burn retried (2 attempts) and failed. -/
theorem C2_counterexample :
    (fun k => if k = 1 then
        AttemptOutcome.err ⟨"Solana error: has expired", []⟩ (some "0xh1")
      else AttemptOutcome.err ⟨"boom", []⟩ none : Nat → AttemptOutcome) 1 =
        AttemptOutcome.err ⟨"Solana error: has expired", []⟩ (some "0xh1") ∧
      isSolanaTxExpiredError "Solana error: has expired" = true ∧
      (executeBurn (fun k => if k = 1 then
          AttemptOutcome.err ⟨"Solana error: has expired", []⟩ (some "0xh1")
        else AttemptOutcome.err ⟨"boom", []⟩ none)).2.1 = 2 ∧
      (executeBurn (fun k => if k = 1 then
          AttemptOutcome.err ⟨"Solana error: has expired", []⟩ (some "0xh1")
        else AttemptOutcome.err ⟨"boom", []⟩ none)).1 = Except.error "boom" :=
  ⟨rfl, by decide, by decide, rfl⟩

/-- Witness for `C2_burn_retry_amended`: the attempt bound, the
retry-only-on-expiry property and the final-expiry rescue at concrete
behaviours. -/
theorem C2_witness :
    (executeBurn (fun _ => AttemptOutcome.ok "0xquick")).2.1 ≤ 3 ∧
      (∃ e obs, (fun k => if k = 1 then
          AttemptOutcome.err ⟨"Solana error: has expired", []⟩ (some "0xh1")
        else AttemptOutcome.err ⟨"boom", []⟩ none : Nat → AttemptOutcome) 1 =
          AttemptOutcome.err e obs ∧ isSolanaTxExpiredError e.message = true) ∧
      (executeBurn (fun _ => AttemptOutcome.err ⟨"has expired", []⟩ (some "0xobsv"))).1 =
        Except.ok "0xobsv" := by
  refine ⟨C2_burn_retry_amended.1 (fun _ => AttemptOutcome.ok "0xquick"),
    C2_burn_retry_amended.2.1 (fun k => if k = 1 then
        AttemptOutcome.err ⟨"Solana error: has expired", []⟩ (some "0xh1")
      else AttemptOutcome.err ⟨"boom", []⟩ none) 1 (by decide) (by decide), ?_⟩
  have h := C2_burn_retry_amended.2.2.1
    (fun _ => AttemptOutcome.err ⟨"has expired", []⟩ (some "0xobsv"))
    ⟨"has expired", []⟩ 3 (some "0xobsv") (by rfl) (by decide) (by decide)
  simpa using h

/-! ### Claim C4 — session status never regresses -/

/-- Claim C4 (amended): for every sequence of progress events *produced by*
`transfer()` or `recover()` (under any environment), the session status never
regresses: each consumed event leaves the status unchanged, moves it to a
state strictly later in the documented forward order, or (for the terminal
sets done outside the reducers) to a terminal failure state. -/
theorem C4_no_regress_amended :
    (∀ (p : BridgeParams) (env : TransferEnv),
        traceOK stepForwardOK reduceTransfer ⟨TxStatus.PENDING, none, none⟩
          (bridgeUSDC p env).2 = true) ∧
      (∀ (p : RecoverParams) (env : TransferEnv),
        traceOK stepForwardOK reduceRecover ⟨TxStatus.BURNING, some p.sourceTxHash, none⟩
          (recoverTransfer p env).2 = true) :=
  ⟨fun p env => bridgeUSDC_trace_ok p env _ rfl,
    fun p env => recoverTransfer_trace_ok p env _ rfl⟩

/-- Claim C4, as stated (quantified over *every* sequence of progress
events), fails: the reducer derives the next status from the event alone, so
consuming a mint-success event followed by a burn-pending event moves the
session from `COMPLETED` back to `BURNING` — a regression that is neither
the same state, nor the documented next forward state, nor terminal. -/
theorem C4_counterexample :
    traceOK stepNextOK reduceTransfer ⟨TxStatus.PENDING, none, none⟩
        [⟨"mint", EvState.success, some "0xm"⟩, ⟨"burn", EvState.pending, none⟩] = false ∧
      traceOK stepForwardOK reduceTransfer ⟨TxStatus.PENDING, none, none⟩
        [⟨"mint", EvState.success, some "0xm"⟩, ⟨"burn", EvState.pending, none⟩] = false ∧
      (reduceTransfer ⟨TxStatus.PENDING, none, none⟩
          ⟨"mint", EvState.success, some "0xm"⟩).status = TxStatus.COMPLETED ∧
      (reduceTransfer (reduceTransfer ⟨TxStatus.PENDING, none, none⟩
          ⟨"mint", EvState.success, some "0xm"⟩)
          ⟨"burn", EvState.pending, none⟩).status = TxStatus.BURNING ∧
      statusRank TxStatus.BURNING < statusRank TxStatus.COMPLETED := by
  refine ⟨by decide, by decide, by decide, by decide, by decide⟩

/-! ### Claim C5 — transfer() input validation -/

/-- Claim C5 (amended): `transfer()` validates only that `recipientAddress`
is present (and that the amount parses); on either failure it throws
immediately, before any adapter, chain or on-chain interaction, with no
progress event emitted and no retry.  It does *not* check
`sourceChainId ≠ destChainId` (the transfer form performs that check before
calling it). -/
theorem C5_validation_amended :
    (∀ (p : BridgeParams) (env : TransferEnv), p.recipientAddress = "" →
        bridgeUSDC p env = (Except.error "Recipient address is required", [])) ∧
      (∀ (p : BridgeParams) (env : TransferEnv) (m : String), p.recipientAddress ≠ "" →
        parseUSDC p.amount = Except.error m →
        bridgeUSDC p env = (Except.error m, [])) := by
  constructor
  · intro p env h
    unfold bridgeUSDC
    rw [if_pos h]
  · intro p env m h hm
    unfold bridgeUSDC
    rw [if_neg h, hm]

/-- Claim C5, as stated, fails: `bridgeUSDC` performs no same-chain check —
called with `sourceChainId = destChainId` it proceeds to the on-chain flow
and emits progress events (here the whole run even completes). -/
theorem C5_counterexample :
    (BridgeParams.mk "ethereum-mainnet" "ethereum-mainnet" "1" "0xme").sourceChainId =
        (BridgeParams.mk "ethereum-mainnet" "ethereum-mainnet" "1" "0xme").destChainId ∧
      (bridgeUSDC (BridgeParams.mk "ethereum-mainnet" "ethereum-mainnet" "1" "0xme")
          envBenign).2.head? = some ⟨"approve", EvState.pending, none⟩ ∧
      (bridgeUSDC (BridgeParams.mk "ethereum-mainnet" "ethereum-mainnet" "1" "0xme")
          envBenign).2.length = 8 ∧
      ((bridgeUSDC (BridgeParams.mk "ethereum-mainnet" "ethereum-mainnet" "1" "0xme")
          envBenign).1.toOption.map fun r => r.state) = some "success" := by
  refine ⟨rfl, by decide, by decide, by decide⟩

/-- Witness for `C5_validation_amended` at concrete inputs. -/
theorem C5_witness :
    bridgeUSDC (BridgeParams.mk "ethereum-mainnet" "base-mainnet" "1" "") envBenign =
        (Except.error "Recipient address is required", []) ∧
      bridgeUSDC (BridgeParams.mk "ethereum-mainnet" "base-mainnet" "oops" "0xme") envBenign =
        (Except.error "Failed to parse USDC amount: Invalid USDC amount format", []) :=
  ⟨C5_validation_amended.1 (BridgeParams.mk "ethereum-mainnet" "base-mainnet" "1" "")
      envBenign rfl,
    C5_validation_amended.2 (BridgeParams.mk "ethereum-mainnet" "base-mainnet" "oops" "0xme")
      envBenign _ (by decide) rfl⟩

/-! ### Claim C3 — recovery recipient extraction -/

theorem recoverTransfer_mint_events (p : RecoverParams) (env : TransferEnv)
    (res : Except String BridgeResult) (evs : List ProgressEvent)
    (h : recoverTransfer p env = (res, evs)) (e : ProgressEvent)
    (he : e ∈ evs) (hstep : e.step = "mint") :
    ∃ att recip, env.attestation = Except.ok att ∧
      extractRecipientFromAttestation att = Except.ok recip := by
  unfold recoverTransfer at h
  cases h1 : getChainDefinition p.sourceChainId with
  | error m =>
    rw [h1] at h
    obtain ⟨-, hev⟩ := Prod.mk.inj h
    rw [← hev] at he
    simp at he
  | ok scd =>
  rw [h1] at h
  dsimp only at h
  cases h2 : (if isSolanaChain p.sourceChainId then
      Except.ok (String.mk (trimChars p.sourceTxHash.data))
    else normalizeEvmTxHash p.sourceTxHash) with
  | error m =>
    rw [h2] at h
    obtain ⟨-, hev⟩ := Prod.mk.inj h
    rw [← hev] at he
    simp at he
  | ok ntx =>
  rw [h2] at h
  dsimp only at h
  cases h3 : parseUSDC p.amount with
  | error m =>
    rw [h3] at h
    obtain ⟨-, hev⟩ := Prod.mk.inj h
    rw [← hev] at he
    simp at he
  | ok amt =>
  rw [h3] at h
  dsimp only at h
  cases h4 : createAdapter p.sourceChainId (isSolanaChain p.sourceChainId)
      env.evmWallet env.solanaWallet with
  | error m =>
    rw [h4] at h
    obtain ⟨-, hev⟩ := Prod.mk.inj h
    rw [← hev] at he
    simp at he
  | ok u1 =>
  rw [h4] at h
  dsimp only at h
  cases h5 : createAdapter p.destChainId (isSolanaChain p.destChainId)
      env.evmWallet env.solanaWallet with
  | error m =>
    rw [h5] at h
    obtain ⟨-, hev⟩ := Prod.mk.inj h
    rw [← hev] at he
    simp at he
  | ok u2 =>
  rw [h5] at h
  dsimp only at h
  cases h6 : env.sourceAddress with
  | error m =>
    rw [h6] at h
    obtain ⟨-, hev⟩ := Prod.mk.inj h
    rw [← hev] at he
    simp at he
  | ok sa =>
  rw [h6] at h
  dsimp only at h
  cases h7 : getChainDefinition p.destChainId with
  | error m =>
    rw [h7] at h
    obtain ⟨-, hev⟩ := Prod.mk.inj h
    rw [← hev] at he
    simp at he
  | ok dcd =>
  rw [h7] at h
  dsimp only at h
  cases hF : env.attestation with
  | error m =>
    rw [hF] at h
    simp only [fetchAttestation] at h
    obtain ⟨-, hev⟩ := Prod.mk.inj h
    rw [← hev] at he
    simp only [List.mem_singleton] at he
    rw [he] at hstep
    simp at hstep
  | ok att =>
  rw [hF] at h
  simp only [fetchAttestation] at h
  cases hX : extractRecipientFromAttestation att with
  | error m =>
    rw [hX] at h
    dsimp only at h
    obtain ⟨-, hev⟩ := Prod.mk.inj h
    rw [← hev] at he
    simp only [List.mem_cons, List.not_mem_nil, or_false] at he
    rcases he with he | he <;> rw [he] at hstep <;> simp at hstep
  | ok recip =>
    exact ⟨att, recip, rfl, hX⟩

/-- Claim C3: the recovery mint recipient comes solely from the attestation
payload's `decodedMessage.decodedMessageBody.mintRecipient`: when that field
is absent extraction fails with the recipient-not-recoverable error; a mint
is only ever attempted after a successful extraction; and every successful
recovery mints to exactly the extracted recipient (`recover()` accepts no
caller-supplied recipient at all). -/
theorem C3_recipient_authoritative :
    (∀ a : Attestation,
        ((a.decodedMessage.bind fun d => d.decodedMessageBody).bind
          (fun b => b.mintRecipient)) = none →
        extractRecipientFromAttestation a =
          Except.error
            "Cannot extract mint recipient from attestation. Invalid burn transaction.") ∧
      (∀ (p : RecoverParams) (env : TransferEnv) (res : Except String BridgeResult)
          (evs : List ProgressEvent) (e : ProgressEvent),
        recoverTransfer p env = (res, evs) → e ∈ evs → e.step = "mint" →
        ∃ att recip, env.attestation = Except.ok att ∧
          extractRecipientFromAttestation att = Except.ok recip) ∧
      (∀ (p : RecoverParams) (env : TransferEnv) (res : BridgeResult)
          (evs : List ProgressEvent),
        recoverTransfer p env = (Except.ok res, evs) →
        ∃ att recip, env.attestation = Except.ok att ∧
          extractRecipientFromAttestation att = Except.ok recip ∧
          res.destination.address = recip) := by
  refine ⟨?_, ?_, ?_⟩
  · intro a ha
    unfold extractRecipientFromAttestation
    rw [ha]
  · exact fun p env res evs e h he hs => recoverTransfer_mint_events p env res evs h e he hs
  · intro p env res evs h
    obtain ⟨att, recip, ntx, mh, amt, sa, scd, dcd, hF, hX, -, -, hres⟩ :=
      recoverTransfer_ok_inv p env res evs h
    exact ⟨att, recip, hF, hX, by rw [hres]; rfl⟩

/-- Witness for `C3_recipient_authoritative`: the absent-field failure, a
mint event in a concrete recovery run implying a successful extraction, and
that run's minted recipient being the payload's. -/
theorem C3_witness :
    extractRecipientFromAttestation ⟨none⟩ =
        Except.error
          "Cannot extract mint recipient from attestation. Invalid burn transaction." ∧
      (∃ att recip, envBenign.attestation = Except.ok att ∧
        extractRecipientFromAttestation att = Except.ok recip) ∧
      ((recoverTransfer pRecEthBase envBenign).1.toOption.map
        fun r => r.destination.address) = some "0xoriginalrecipient" := by
  refine ⟨C3_recipient_authoritative.1 ⟨none⟩ rfl, ?_, by decide⟩
  exact C3_recipient_authoritative.2.1 pRecEthBase envBenign
    (recoverTransfer pRecEthBase envBenign).1 (recoverTransfer pRecEthBase envBenign).2
    ⟨"mint", EvState.pending, none⟩ rfl (by decide) rfl

/-! ### Claim C7 — recovery transaction-id normalization -/

/-- The canonical EVM transaction-id shape: `0x` followed by exactly 64
lowercase hexadecimal digits. -/
def isCanonicalEvmHash (h : String) : Bool :=
  h.data.length = 66 && h.data.take 2 = ['0', 'x'] && (h.data.drop 2).all isLowerHexDigit

theorem stepHash_success_burn (amt : Nat) (sa : String) (scd : ChainDefinition)
    (recip : String) (dcd : ChainDefinition) (bh mh : String) (att : Attestation) :
    stepHashOfResult (createSuccessResult amt sa scd recip dcd bh mh att) "burn" =
      some bh := by
  simp [stepHashOfResult, createSuccessResult, List.find?]

theorem stepHash_success_mint (amt : Nat) (sa : String) (scd : ChainDefinition)
    (recip : String) (dcd : ChainDefinition) (bh mh : String) (att : Attestation) :
    stepHashOfResult (createSuccessResult amt sa scd recip dcd bh mh att) "mint" =
      some mh := by
  simp [stepHashOfResult, createSuccessResult, List.find?]

/-- Claim C7: `recover()` normalizes the supplied source transaction id to
the canonical form of the source chain's execution category before use.  For
EVM-like sources the normalized id is `0x` + 64 lowercase hex digits and the
call fails with the malformed-transaction-id error before any adapter or
network action when no candidate passes validation; every successful
EVM-source recovery records the normalized id as its burn transaction.  For
Solana-like sources the id is only trimmed. -/
theorem C7_normalization :
    (∀ (s h : String), normalizeEvmTxHash s = Except.ok h →
        isCanonicalEvmHash h = true) ∧
      (∀ (s m : String), normalizeEvmTxHash s = Except.error m →
        m = "Invalid transaction hash format. Expected 0x + 64 hex characters.") ∧
      (∀ (p : RecoverParams) (env : TransferEnv) (cd : ChainDefinition) (m : String),
        isSolanaChain p.sourceChainId = false →
        getChainDefinition p.sourceChainId = Except.ok cd →
        normalizeEvmTxHash p.sourceTxHash = Except.error m →
        recoverTransfer p env = (Except.error m, [])) ∧
      (∀ (p : RecoverParams) (env : TransferEnv) (res : BridgeResult)
          (evs : List ProgressEvent),
        isSolanaChain p.sourceChainId = false →
        recoverTransfer p env = (Except.ok res, evs) →
        ∃ h, normalizeEvmTxHash p.sourceTxHash = Except.ok h ∧
          stepHashOfResult res "burn" = some h) ∧
      (∀ (p : RecoverParams) (env : TransferEnv) (res : BridgeResult)
          (evs : List ProgressEvent),
        isSolanaChain p.sourceChainId = true →
        recoverTransfer p env = (Except.ok res, evs) →
        stepHashOfResult res "burn" = some (String.mk (trimChars p.sourceTxHash.data))) := by
  refine ⟨?_, ?_, ?_, ?_, ?_⟩
  · intro s h heq
    unfold normalizeEvmTxHash at heq
    by_cases hful : isFullEvmHash
        ((findHexMatch (trimChars s.data)).getD (trimChars s.data)) = true
    · rw [if_pos hful] at heq
      cases heq
      simp only [isFullEvmHash, Bool.and_eq_true, decide_eq_true_eq] at hful
      obtain ⟨⟨hlen, htake⟩, hall⟩ := hful
      simp only [isCanonicalEvmHash, Bool.and_eq_true, decide_eq_true_eq]
      refine ⟨⟨?_, rfl⟩, ?_⟩
      · simp only [String.mk, List.length_cons, List.length_map, List.length_drop, hlen]
      · rw [List.all_eq_true]
        intro c hc
        simp only [String.mk, List.drop_succ_cons, List.drop_zero] at hc
        obtain ⟨x, hx, rfl⟩ := List.mem_map.mp hc
        exact lowerChar_hex x (List.all_eq_true.mp hall x hx)
    · rw [if_neg hful] at heq
      cases heq
  · intro s m heq
    unfold normalizeEvmTxHash at heq
    by_cases hful : isFullEvmHash
        ((findHexMatch (trimChars s.data)).getD (trimChars s.data)) = true
    · rw [if_pos hful] at heq
      cases heq
    · rw [if_neg hful] at heq
      injection heq with hmsg
      exact hmsg.symm
  · intro p env cd m hsol hcd hnorm
    unfold recoverTransfer
    rw [hcd]
    dsimp only
    rw [hsol]
    simp only [Bool.false_eq_true, if_false, hnorm]
  · intro p env res evs hsol h
    obtain ⟨att, recip, ntx, mh, amt, sa, scd, dcd, hF, hX, hntx, hM, hres⟩ :=
      recoverTransfer_ok_inv p env res evs h
    rw [hsol] at hntx
    simp only [Bool.false_eq_true, if_false] at hntx
    refine ⟨ntx, hntx, ?_⟩
    rw [hres]
    exact stepHash_success_burn amt sa scd recip dcd ntx mh att
  · intro p env res evs hsol h
    obtain ⟨att, recip, ntx, mh, amt, sa, scd, dcd, hF, hX, hntx, hM, hres⟩ :=
      recoverTransfer_ok_inv p env res evs h
    rw [hsol] at hntx
    simp only [if_true] at hntx
    injection hntx with hn
    rw [hres, stepHash_success_burn, hn]

/-- Witness for `C7_normalization`: a canonical output for an uppercase-hex
input with surrounding whitespace, the malformed error, an EVM-source
recovery failing fast with it, and the Solana trim-only path. -/
theorem C7_witness :
    isCanonicalEvmHash
        "0xaaaaaaaaaaaaaaaaaaaaaaaaaaaaaaaaaaaaaaaaaaaaaaaaaaaaaaaaaaaaaaaa" = true ∧
      normalizeEvmTxHash " 0xAAAAAAAAAAAAAAAAAAAAAAAAAAAAAAAAAAAAAAAAAAAAAAAAAAAAAAAAAAAAAAAA " =
        (Except.ok "0xaaaaaaaaaaaaaaaaaaaaaaaaaaaaaaaaaaaaaaaaaaaaaaaaaaaaaaaaaaaaaaaa" :
          Except String String) ∧
      (∀ m, normalizeEvmTxHash "0x123" = Except.error m →
        m = "Invalid transaction hash format. Expected 0x + 64 hex characters.") ∧
      recoverTransfer (RecoverParams.mk "0x123" "ethereum-mainnet" "base-mainnet" "1")
          envBenign =
        (Except.error "Invalid transaction hash format. Expected 0x + 64 hex characters.",
          []) ∧
      ((recoverTransfer (RecoverParams.mk "  solanasig123  " "solana-mainnet"
            "base-mainnet" "1") envBenign).1.toOption.bind
          fun r => stepHashOfResult r "burn") = some "solanasig123" := by
  refine ⟨?_, rfl, fun m => C7_normalization.2.1 "0x123" m, ?_, by decide⟩
  · exact C7_normalization.1
      " 0xAAAAAAAAAAAAAAAAAAAAAAAAAAAAAAAAAAAAAAAAAAAAAAAAAAAAAAAAAAAAAAAA "
      "0xaaaaaaaaaaaaaaaaaaaaaaaaaaaaaaaaaaaaaaaaaaaaaaaaaaaaaaaaaaaaaaaa" rfl
  · exact C7_normalization.2.2.1
      (RecoverParams.mk "0x123" "ethereum-mainnet" "base-mainnet" "1") envBenign
      ⟨"ethereum-mainnet", "Ethereum"⟩ _ (by decide) rfl rfl

/-! ### Claim C10 — approve step always recorded as noop -/

/-- Claim C10: every successful `transfer()` records the approve step as
`noop` with no transaction hash in its `BridgeResult`, even when an approval
transaction was actually executed during the call (the progress events alone
record the executed approval). -/
theorem C10_approve_recorded_noop :
    (∀ (p : BridgeParams) (env : TransferEnv) (res : BridgeResult)
        (evs : List ProgressEvent),
      bridgeUSDC p env = (Except.ok res, evs) →
      res.steps.head? = some ⟨"approve", "noop", none, none⟩) ∧
      ((bridgeUSDC pEthBase { envBenign with approve := ApproveBehavior.execOk }).2.contains
          ⟨"approve", EvState.success, none⟩ = true ∧
        ((bridgeUSDC pEthBase
            { envBenign with approve := ApproveBehavior.execOk }).1.toOption.map
          fun r => r.steps.head?) = some (some ⟨"approve", "noop", none, none⟩)) := by
  refine ⟨?_, by decide, by decide⟩
  intro p env res evs h
  obtain ⟨amt, sa, scd, dcd, bh, mh, att, -, -, -, hres⟩ :=
    bridgeUSDC_ok_inv p env res evs h
  rw [hres]
  rfl

/-- Witness for `C10_approve_recorded_noop` at a concrete successful run. -/
theorem C10_witness :
    ((bridgeUSDC pEthBase envBenign).1.toOption.map fun r => r.steps.head?) =
      some (some ⟨"approve", "noop", none, none⟩) := by
  have hok : (bridgeUSDC pEthBase envBenign).1.toOption.isSome = true := by decide
  cases hrun : (bridgeUSDC pEthBase envBenign).1 with
  | error m =>
    rw [hrun] at hok
    simp [Except.toOption] at hok
  | ok r =>
    have heq : bridgeUSDC pEthBase envBenign =
        (Except.ok r, (bridgeUSDC pEthBase envBenign).2) := by
      rw [← hrun]
    have hh := C10_approve_recorded_noop.1 pEthBase envBenign r _ heq
    simp [Except.toOption, hh]
